import Mathlib

/-!
Verification development for the TackR web-interest-tracker core:
a shallow embedding, in Lean 4, of the value-extraction pipeline
(`backend/src/worker.ts`, here `processTrackedItem` and its helpers),
the numeric parser (`backend/src/utils/parseValue.ts`), and the
tracked-items HTTP routes (`backend/src/routes/trackedItems.ts`),
together with theorems settling the specified properties.

Numbers that are JavaScript `number` values in the source (snapshot
values, trigger thresholds) are modelled as exact rationals `ℚ`;
timestamps are modelled as natural numbers; database tables are
modelled as in-memory lists with an id counter.
-/

deriving instance DecidableEq for Except

namespace TackR

/-! ## Characters and JavaScript string primitives -/

/-- The whitespace characters recognised by the JavaScript `\s` class
(restricted to the ASCII range, which is all the source ever feeds it). -/
def isWsChar (c : Char) : Bool :=
  c = ' ' || c = '\t' || c = '\n' || c = '\r' || c = '\x0b' || c = '\x0c'

/-- One step of `String.prototype.replace(/\s+/g, " ")`: the flag records
whether the previous character was part of a whitespace run (in which
case further whitespace is dropped rather than emitting another space). -/
def collapseWsAux : Bool → List Char → List Char
  | _, [] => []
  | prevWs, c :: cs =>
    if isWsChar c then
      if prevWs then collapseWsAux true cs
      else ' ' :: collapseWsAux true cs
    else c :: collapseWsAux false cs

/-- `text.replace(/\s+/g, " ")` from `parseValue.ts`. -/
def collapseWs (cs : List Char) : List Char :=
  collapseWsAux false cs

/-- `String.prototype.trim()` (also models Playwright/cheerio
`innerText`/`text()` results being `.trim()`ed). -/
def jsTrim (s : String) : String :=
  ⟨((s.data.dropWhile isWsChar).reverse.dropWhile isWsChar).reverse⟩

/-! ## Numeric Parser (`backend/src/utils/parseValue.ts`)

The source collapses whitespace runs to single spaces, matches the
regular expression `-?\d[\d,]*(\.\d+)?` (leftmost match, no global
flag), strips commas from the match, applies `Number()`, and maps a
`NaN` outcome to `null`.  The regex engine is embedded directly: each
quantifier is greedy, and since the character classes involved are
disjoint from the characters that follow them, greedy matching never
backtracks except for the optional sign when the `-` is not followed
by a digit. -/

def isDigitOrComma (c : Char) : Bool :=
  c.isDigit || c = ','

/-- The characters consumed by `(\.\d+)?` at the head of the input:
a dot followed by at least one digit, greedily extended; otherwise
nothing. -/
def fracPart (cs : List Char) : List Char :=
  match cs with
  | c :: d :: cs' =>
    if c = '.' then
      if d.isDigit then '.' :: d :: cs'.takeWhile Char.isDigit else []
    else []
  | _ => []

/-- The token matched by `-?\d[\d,]*(\.\d+)?` anchored at the head of
the input, if any: an optional sign (kept only when a digit follows,
since otherwise the engine backtracks over `-?` and then fails on the
mandatory digit), a digit, the greedy digit-or-comma run, and the
optional fraction. -/
def tokenAt : List Char → Option (List Char)
  | [] => none
  | c :: cs =>
    if c = '-' then
      match cs with
      | [] => none
      | d :: cs' =>
        if d.isDigit then
          some ('-' :: d :: (cs'.takeWhile isDigitOrComma
            ++ fracPart (cs'.dropWhile isDigitOrComma)))
        else none
    else if c.isDigit then
      some (c :: (cs.takeWhile isDigitOrComma
        ++ fracPart (cs.dropWhile isDigitOrComma)))
    else none

/-- The leftmost match of `-?\d[\d,]*(\.\d+)?` in the input
(`String.prototype.match` without the `g` flag). -/
def firstToken : List Char → Option (List Char)
  | [] => none
  | c :: cs =>
    match tokenAt (c :: cs) with
    | some tok => some tok
    | none => firstToken cs

/-- Value of a digit string read in base 10. -/
def digitsVal (ds : List Char) : Nat :=
  ds.foldl (fun a c => a * 10 + (c.toNat - '0'.toNat)) 0

/-- `Number()` applied to a plain decimal string of the shape
`-?(\d*)(\.\d*)?` (the only shapes reachable from `parseNumericFromText`,
whose cleaned tokens are always `-?\d+(\.\d+)?`); any other shape is a
`NaN` outcome, modelled as `none`. -/
def numberMagnitude? (body : List Char) : Option ℚ :=
  let ip := body.takeWhile Char.isDigit
  let rest := body.dropWhile Char.isDigit
  match rest with
  | [] =>
    if ip.isEmpty then none
    else some (mkRat (digitsVal ip) 1)
  | '.' :: fr =>
    if fr.all Char.isDigit && !(ip.isEmpty && fr.isEmpty) then
      some (mkRat (digitsVal ip * 10 ^ fr.length + digitsVal fr) (10 ^ fr.length))
    else none
  | _ => none

/-- `Number()` on an optionally `-`-signed decimal string, with
`Number.isNaN` failure represented as `none`. -/
def numberValue? : List Char → Option ℚ
  | [] => numberMagnitude? []
  | c :: body =>
    if c = '-' then (numberMagnitude? body).map Rat.neg
    else numberMagnitude? (c :: body)

/-- `match[0].replace(/,/g, "")`. -/
def stripCommas (cs : List Char) : List Char :=
  cs.filter (fun c => c ≠ ',')

/-- `parseNumericFromText` from `backend/src/utils/parseValue.ts`. -/
def parseNumericFromText (text : String) : Option ℚ :=
  match firstToken (collapseWs text.data) with
  | none => none
  | some tok => numberValue? (stripCommas tok)

/-- Spec-side reading used to compare against `parseNumericFromText`:
the exact decimal value denoted by a comma-free signed decimal token
`-?\d+(\.\d+)?` — integer part plus fractional digits over the matching
power of ten, negated under a leading sign. -/
def decimalMagnitude (body : List Char) : ℚ :=
  match body.dropWhile Char.isDigit with
  | '.' :: fr =>
    mkRat (digitsVal (body.takeWhile Char.isDigit) * 10 ^ fr.length + digitsVal fr)
      (10 ^ fr.length)
  | _ => mkRat (digitsVal (body.takeWhile Char.isDigit)) 1

/-- Spec-side exact decimal value of a signed token (see
`decimalMagnitude`). -/
def decimalValueOfToken : List Char → ℚ
  | [] => decimalMagnitude []
  | c :: body =>
    if c = '-' then Rat.neg (decimalMagnitude body)
    else decimalMagnitude (c :: body)


/-! ## Fingerprints and composite selectors (`worker.ts`) -/

/-- A Node Descriptor of a structural Fingerprint
(`type FingerprintNode` in `worker.ts`); an absent `classes` field is
modelled as the empty list (the source treats both identically) and
`nthOfType: number | null | undefined` as an optional integer. -/
structure FingerprintNode where
  tag : String
  classes : List String
  nthOfType : Option Int
deriving DecidableEq, Repr

/-- `type Fingerprint = { path: FingerprintNode[] }` from `worker.ts`. -/
structure Fingerprint where
  path : List FingerprintNode
deriving DecidableEq, Repr

/-- The class-name escaping in `cssFromNodeDescriptor`: each double
quote is prefixed with a backslash. -/
def escapeQuotes (s : String) : String :=
  ⟨s.data.foldr (fun c acc => if c = '"' then '\\' :: '"' :: acc else c :: acc) []⟩

/-- `cssFromNodeDescriptor` from `worker.ts`: tag (defaulting to `div`
when empty/falsy), the non-empty classes joined with dots, and an
`:nth-of-type(n)` suffix when `nthOfType` is a positive number. -/
def cssFromNodeDescriptor (node : FingerprintNode) : String :=
  let base := if node.tag = "" then "div" else node.tag
  let safeClasses := (node.classes.filter (fun c => c ≠ "")).map escapeQuotes
  let withClasses :=
    if safeClasses.isEmpty then base
    else base ++ "." ++ String.intercalate "." safeClasses
  match node.nthOfType with
  | some n =>
    if 0 < n then withClasses ++ ":nth-of-type(" ++ toString n ++ ")"
    else withClasses
  | none => withClasses

/-- `Array.prototype.join(sep)`. -/
def joinSep (sep : String) : List String → String
  | [] => ""
  | [s] => s
  | s :: rest => s ++ sep ++ joinSep sep rest

/-- `cssFromFingerprint` from `worker.ts`: the per-node fragments joined
with the child combinator `" > "`; empty for an empty path. -/
def cssFromFingerprint (fp : Fingerprint) : String :=
  if fp.path.isEmpty then ""
  else joinSep " > " (fp.path.map cssFromNodeDescriptor)

/-! ## Rendered documents and the Fingerprint Matcher -/

/-- A DOM element, abstracted to the only datum the core reads from it:
its (inner) text. -/
structure Element where
  innerText : String
deriving DecidableEq, Repr

/-- A parsed or rendered document, modelled by its selector-query
function: the list of elements matching a CSS selector string, in
document order (`page.locator(css)` / cheerio `$(selector)`). -/
def Doc : Type := String → List Element

/-- `tryFingerprintFallback` from `worker.ts`: `null` without a stored
fingerprint, on an invalid (empty-path) shape, on an empty composite
selector, whenever the composite selector matches a number of elements
other than exactly one, and when the single match's trimmed text is
empty; otherwise the single match's trimmed text. -/
def tryFingerprintFallback (doc : Doc) (fingerprint : Option Fingerprint) :
    Option String :=
  match fingerprint with
  | none => none
  | some fp =>
    if fp.path.isEmpty then none
    else
      let css := cssFromFingerprint fp
      if css = "" then none
      else
        match doc css with
        | [el] =>
          let text := jsTrim el.innerText
          if text = "" then none else some text
        | _ => none

/-! ## Static Extractor (`fetchHtml` / `tryStaticScrape` in `worker.ts`) -/

/-- Outcome of one `fetch(url, ...)` call: a body when the response was
received with a success status, or a failure covering both a network
error and a non-success status (the source throws on either, and both
land in the same `catch`). -/
inductive FetchAttempt where
  | success (body : String)
  | failure
deriving DecidableEq

/-- The `User-Agent` header sent by `fetchHtml`. -/
def staticUserAgent : String :=
  "Mozilla/5.0 (compatible; WebInterestTracker/0.1; +https://example.com)"

/-- `fetchHtml(url, retry)` from `worker.ts`, over an environment giving
the outcome of the `k`-th fetch attempt: on failure it recurses with
`retry - 1` while `retry > 0`, and rethrows when the budget is spent. -/
def fetchHtml (attempt : Nat → FetchAttempt) (retry : Nat) (k : Nat) :
    Except Unit String :=
  match attempt k with
  | .success body => .ok body
  | .failure =>
    match retry with
    | r + 1 => fetchHtml attempt r (k + 1)
    | 0 => .error ()

/-- Environment of one static scrape: the successive fetch outcomes for
the item's URL and the cheerio parse (`load`) of a body. -/
structure StaticEnv where
  attempt : Nat → FetchAttempt
  parse : String → Doc

/-- `tryStaticScrape` from `worker.ts`: fetch (with one retry inside
`fetchHtml`), query the selector, return the first match's trimmed text
(`text || null` maps empty text to `null`); any thrown error — including
the hard fetch failure after the retry — is caught and converted to
`null` to allow the dynamic fallback. -/
def tryStaticScrape (env : StaticEnv) (selector : String) : Option String :=
  match fetchHtml env.attempt 1 0 with
  | .error _ => none
  | .ok html =>
    match env.parse html selector with
    | [] => none
    | el :: _ =>
      let text := jsTrim el.innerText
      if text = "" then none else some text

/-! ## Dynamic Extractor (`tryDynamicScrape` in `worker.ts`) -/

/-- Environment of one dynamic scrape: whether navigation (goto +
settle) succeeds, and the rendered document. -/
structure DynEnv where
  navOk : Bool
  doc : Doc

/-- `tryDynamicScrape` from `worker.ts`: `null` when dynamic scraping is
disabled; a propagated error when navigation fails (the `catch` block
rethrows); otherwise the first literal-selector match's trimmed text if
non-empty, falling back to the Fingerprint Matcher, then `null`. -/
def tryDynamicScrape (enabled : Bool) (env : DynEnv) (selector : String)
    (fingerprint : Option Fingerprint) : Except Unit (Option String) :=
  if !enabled then .ok none
  else if !env.navOk then .error ()
  else
    match env.doc selector with
    | el :: _ =>
      let text := jsTrim el.innerText
      if text = "" then .ok (tryFingerprintFallback env.doc fingerprint)
      else .ok (some text)
    | [] => .ok (tryFingerprintFallback env.doc fingerprint)

/-! ## Data model (prisma schema) and the Store

Database rows are modelled as structures and the tables as lists;
`Snapshot.takenAt` ordering is represented by list order (snapshots are
only ever appended) together with the increasing `id` counter.
Timestamps (`new Date()`) are naturals supplied as a `now` argument. -/

inductive SnapStatus where
  | ok
  | missing
  | error
deriving DecidableEq, Repr

structure Snapshot where
  id : Nat
  trackedItemId : Nat
  valueRaw : String
  valueNumeric : Option ℚ
  status : SnapStatus
deriving DecidableEq, Repr

structure Trigger where
  id : Nat
  trackedItemId : Nat
  comparison : String
  threshold : ℚ
  active : Bool
  lastFiredAt : Option Nat
deriving DecidableEq, Repr

structure TriggerEvent where
  triggerId : Nat
  snapshotId : Nat
deriving DecidableEq, Repr

structure TrackedItem where
  id : Nat
  url : String
  selector : String
  sampleText : Option String
  type : String
  fingerprint : Option Fingerprint
  consecutiveFailures : Nat
  lastSuccessAt : Option Nat
  lastFailureAt : Option Nat
  isActive : Bool
  updatedAt : Nat
deriving DecidableEq, Repr

structure Store where
  items : List TrackedItem
  snapshots : List Snapshot
  triggers : List Trigger
  triggerEvents : List TriggerEvent
  nextSnapshotId : Nat
deriving DecidableEq, Repr

/-- `prisma.snapshot.create(...)`: append a row with the next id. -/
def Store.createSnapshot (st : Store) (itemId : Nat) (raw : String)
    (num : Option ℚ) (status : SnapStatus) : Store × Nat :=
  ({ st with
      snapshots := st.snapshots ++ [⟨st.nextSnapshotId, itemId, raw, num, status⟩],
      nextSnapshotId := st.nextSnapshotId + 1 },
   st.nextSnapshotId)

/-! ## Trigger Evaluator (`routes/trackedItems.ts` and `worker.ts`) -/

/-- `meetsComparison` from `routes/trackedItems.ts` (the worker inlines
the same six cases); unknown comparison strings yield `false`. -/
def meetsComparison (value : ℚ) (comparison : String) (threshold : ℚ) : Bool :=
  if comparison = "lt" then decide (value < threshold)
  else if comparison = "lte" then decide (value ≤ threshold)
  else if comparison = "gt" then decide (threshold < value)
  else if comparison = "gte" then decide (threshold ≤ value)
  else if comparison = "eq" then decide (value = threshold)
  else if comparison = "neq" then decide (value ≠ threshold)
  else false

/-- `prisma.trigger.findMany({ where: { trackedItemId, active: true } })`. -/
def activeTriggersFor (st : Store) (itemId : Nat) : List Trigger :=
  st.triggers.filter (fun t => t.trackedItemId == itemId && t.active)

/-- The body of one firing: create the TriggerEvent for this trigger and
the just-created snapshot, then stamp the trigger's `lastFiredAt`. -/
def fireTrigger (st : Store) (trig : Trigger) (snapId now : Nat) : Store :=
  { st with
    triggerEvents := st.triggerEvents ++ [⟨trig.id, snapId⟩],
    triggers := st.triggers.map fun t =>
      if t.id = trig.id then { t with lastFiredAt := some now } else t }

/-- The `for (const trig of triggers)` loop shared by the worker and the
manual snapshot route: fire each fetched trigger whose `lastFiredAt` is
unset and whose comparison matches the snapshot's numeric value. -/
def evalTriggersLoop (numeric : ℚ) (snapId now : Nat) :
    List Trigger → Store → Store
  | [], st => st
  | trig :: rest, st =>
    if trig.lastFiredAt.isNone
        && meetsComparison numeric trig.comparison trig.threshold then
      evalTriggersLoop numeric snapId now rest (fireTrigger st trig snapId now)
    else
      evalTriggersLoop numeric snapId now rest st

/-! ## Extraction Pipeline (`processTrackedItem` in `worker.ts`) -/

/-- The per-invocation environment of the pipeline: the static tier's
fetch/parse behaviour, the dynamic-scrape enable flag
(`ENABLE_DYNAMIC_SCRAPE`), and the rendered-page behaviour. -/
structure ExtractionEnv where
  static : StaticEnv
  enableDynamic : Bool
  dyn : DynEnv

/-- Steps 1–2 of `processTrackedItem` from `worker.ts`: try the static
tier; when it yields no text, fall through to the dynamic tier (literal
selector, then the fingerprint fallback), whose thrown errors propagate. -/
def extractedText (env : ExtractionEnv) (item : TrackedItem) :
    Except Unit (Option String) :=
  match tryStaticScrape env.static item.selector with
  | some text => .ok (some text)
  | none => tryDynamicScrape env.enableDynamic env.dyn item.selector item.fingerprint

/-- `processTrackedItem` from `worker.ts`: no-op for a missing item;
otherwise classify `extractedText` and write exactly one snapshot —
`ok` with the parsed numeric on text, `missing` on no text, `error`
when the dynamic tier threw (the `catch` block) — and, on an `ok`
snapshot carrying a numeric value, run the trigger loop against the
snapshot just created. -/
def processTrackedItem (env : ExtractionEnv) (st : Store) (id : Nat) (now : Nat) :
    Store :=
  match st.items.find? (fun it => it.id == id) with
  | none => st
  | some item =>
    match extractedText env item with
    | .error _ => (st.createSnapshot item.id "" none .error).1
    | .ok none => (st.createSnapshot item.id "" none .missing).1
    | .ok (some text) =>
      let numeric := parseNumericFromText text
      let snapped := st.createSnapshot item.id text numeric .ok
      match numeric with
      | some q => evalTriggersLoop q snapped.2 now (activeTriggersFor snapped.1 item.id) snapped.1
      | none => snapped.1

/-! ## Manual snapshot entry point
(`POST /tracked-items/:id/snapshots` in `routes/trackedItems.ts`) -/

inductive PostSnapshotResult where
  | invalidValue
  | notFound
  | created (snapId : Nat)
deriving DecidableEq, Repr

/-- The `POST /:id/snapshots` route body: 404 for a missing item, 400
for an empty `valueRaw` (the `!valueRaw` re-check); otherwise parse the
numeric, create one `ok` snapshot, reset the item's health
(`lastSuccessAt`, `consecutiveFailures: 0`, `updatedAt`), and run the
trigger loop when the numeric parse succeeded. -/
def postSnapshot (st : Store) (itemId : Nat) (valueRaw : String) (now : Nat) :
    PostSnapshotResult × Store :=
  match st.items.find? (fun it => it.id == itemId) with
  | none => (.notFound, st)
  | some item =>
    if valueRaw = "" then (.invalidValue, st)
    else
      let numeric := parseNumericFromText valueRaw
      let snapped := st.createSnapshot itemId valueRaw numeric .ok
      let st2 := { snapped.1 with items := snapped.1.items.map fun it =>
        if it.id = item.id then
          { it with lastSuccessAt := some now, consecutiveFailures := 0,
                    updatedAt := now }
        else it }
      let st3 :=
        match numeric with
        | some q => evalTriggersLoop q snapped.2 now (activeTriggersFor st2 itemId) st2
        | none => st2
      (.created snapped.2, st3)

/-! ## Failure-reporting entry point
(`POST /tracked-items/:id/failure` in `routes/trackedItems.ts`) -/

/-- `FAILURE_THRESHOLD` from the failure route. -/
def failureThreshold : Nat := 3

inductive PostFailureResult where
  | invalidId
  | notFound
  | recorded (consecutiveFailures : Nat) (shouldRepair : Bool)
deriving DecidableEq, Repr

/-- The `POST /:id/failure` route body: reject id 0 (`!id`), 404 for a
missing item; otherwise increment `consecutiveFailures`, stamp
`lastFailureAt` and `updatedAt`, and report whether the updated count
has crossed `FAILURE_THRESHOLD` while the item is active. -/
def postFailure (st : Store) (itemId : Nat) (now : Nat) :
    PostFailureResult × Store :=
  if itemId = 0 then (.invalidId, st)
  else
    match st.items.find? (fun it => it.id == itemId) with
    | none => (.notFound, st)
    | some item =>
      let st1 := { st with items := st.items.map fun it =>
        if it.id = item.id then
          { it with consecutiveFailures := it.consecutiveFailures + 1,
                    lastFailureAt := some now, updatedAt := now }
        else it }
      let updatedFailures := item.consecutiveFailures + 1
      (.recorded updatedFailures
        (decide (failureThreshold ≤ updatedFailures) && item.isActive), st1)

/-! ## Repair Orchestrator
(`POST /tracked-items/:id/repair-selector` in `routes/trackedItems.ts`) -/

/-- A Proposal returned by the external AI collaborator
(`repairSelectorWithAI`). -/
structure Proposal where
  selector : String
  sampleText : String
  type : Option String
  valueNumeric : Option ℚ
deriving DecidableEq, Repr

/-- The external AI collaborator, as a pure function of the inputs the
route supplies: url, current selector, best-known sample text, and
fingerprint. -/
def Proposer : Type :=
  String → String → Option String → Option Fingerprint → Option Proposal

inductive RepairResult where
  | invalidId
  | notFound
  | noViableRepair
  | repaired (snapId : Nat)
deriving DecidableEq, Repr

/-- The item's most recent `ok` snapshot
(`snapshots: { where: { status: "ok" }, orderBy: { takenAt: "desc" }, take: 1 }`);
snapshots are appended in `takenAt` order, so this is the last `ok` row. -/
def lastOkSnapshot (st : Store) (itemId : Nat) : Option Snapshot :=
  (st.snapshots.filter
    (fun s => s.trackedItemId == itemId && s.status == SnapStatus.ok)).getLast?

/-- `lastOkSnapshot?.valueRaw ?? item.sampleText` (the `??` chain applies
only to `null`, so an empty `valueRaw` string is kept). -/
def bestSampleText (st : Store) (itemId : Nat) (item : TrackedItem) : Option String :=
  match lastOkSnapshot st itemId with
  | some snap => some snap.valueRaw
  | none => item.sampleText

/-- The `POST /:id/repair-selector` route body: reject id 0, 404 for a
missing item; ask the collaborator with the last `ok` snapshot's raw
value (falling back to the stored sample text) — on no proposal return
the typed 422 `repair_failed` outcome with the store untouched; on a
proposal replace selector/sampleText/type (keeping the old type when
omitted), reset `consecutiveFailures`, stamp `lastSuccessAt` and
`updatedAt`, and create one immediate `ok` snapshot whose numeric is
the proposal's or, when omitted, the Numeric Parser's result. -/
def repairSelector (st : Store) (itemId : Nat) (propose : Proposer) (now : Nat) :
    RepairResult × Store :=
  if itemId = 0 then (.invalidId, st)
  else
    match st.items.find? (fun it => it.id == itemId) with
    | none => (.notFound, st)
    | some item =>
      match propose item.url item.selector (bestSampleText st itemId item)
          item.fingerprint with
      | none => (.noViableRepair, st)
      | some proposal =>
        let st1 := { st with items := st.items.map fun (it : TrackedItem) =>
          if it.id = item.id then
            { it with selector := proposal.selector,
                      sampleText := some proposal.sampleText,
                      type := proposal.type.getD it.type,
                      consecutiveFailures := 0,
                      lastSuccessAt := some now,
                      updatedAt := now }
          else it }
        let valueNumeric : Option ℚ :=
          match proposal.valueNumeric with
          | some q => some q
          | none => parseNumericFromText proposal.sampleText
        let snapped := st1.createSnapshot itemId proposal.sampleText valueNumeric .ok
        (.repaired snapped.2, snapped.1)

/-! ## Runs, and the invariants the theorems quantify over -/

/-- One batch-pipeline invocation: the extraction environment it sees,
the item it processes, and its wall-clock instant. -/
structure Invocation where
  env : ExtractionEnv
  itemId : Nat
  now : Nat

/-- A sequence of batch-pipeline invocations, in order (`runOnce`
processes items sequentially; later runs just extend the list). -/
def runAll : List Invocation → Store → Store
  | [], st => st
  | inv :: rest, st => runAll rest (processTrackedItem inv.env st inv.itemId inv.now)

/-- Every trigger row with this id has already fired (`lastFiredAt`
non-null): the latch of the Trigger Evaluator. -/
def TriggerDormant (st : Store) (tid : Nat) : Prop :=
  ∀ t ∈ st.triggers, t.id = tid → t.lastFiredAt.isSome

/-- Number of TriggerEvents recorded for the trigger id. -/
def eventsFor (st : Store) (tid : Nat) : Nat :=
  (st.triggerEvents.filter (fun e => e.triggerId == tid)).length

/-- The Snapshot invariant of the data model: a non-`ok` snapshot
carries the empty raw value and no numeric value (equivalently,
`valueNumeric` is present only on `ok` rows). -/
def SnapInvariant (st : Store) : Prop :=
  ∀ s ∈ st.snapshots, s.status ≠ SnapStatus.ok → s.valueRaw = "" ∧ s.valueNumeric = none

/-! ## Concrete fixtures used by witnesses and counterexamples -/

/-- A document that answers one selector with the given elements and
every other selector with no match. -/
def docOf (css : String) (els : List Element) : Doc :=
  fun s => if s = css then els else []

/-- A static environment whose fetches always succeed with one fixed
document. -/
def staticEnvOk (css : String) (els : List Element) : StaticEnv :=
  { attempt := fun _ => .success "<html>", parse := fun _ => docOf css els }

/-- A static environment whose fetches always fail. -/
def staticEnvDown : StaticEnv :=
  { attempt := fun _ => .failure, parse := fun _ => docOf "" [] }

def itemEx : TrackedItem :=
  { id := 1, url := "http://shop.example/p", selector := ".price",
    sampleText := none, type := "price", fingerprint := none,
    consecutiveFailures := 0, lastSuccessAt := none, lastFailureAt := none,
    isActive := true, updatedAt := 0 }

def triggerEx : Trigger :=
  { id := 7, trackedItemId := 1, comparison := "lt", threshold := 100,
    active := true, lastFiredAt := none }

def storeEx : Store :=
  { items := [itemEx], snapshots := [], triggers := [triggerEx],
    triggerEvents := [], nextSnapshotId := 0 }

def envPriceOk : ExtractionEnv :=
  { static := staticEnvOk ".price" [⟨" $19.99 "⟩],
    enableDynamic := false,
    dyn := { navOk := true, doc := docOf "" [] } }

def envAllDown : ExtractionEnv :=
  { static := staticEnvDown,
    enableDynamic := false,
    dyn := { navOk := true, doc := docOf "" [] } }

/-! ## Lemmas about the trigger loop -/

theorem fireTrigger_items (st : Store) (trig : Trigger) (snapId now : Nat) :
    (fireTrigger st trig snapId now).items = st.items := rfl

theorem fireTrigger_snapshots (st : Store) (trig : Trigger) (snapId now : Nat) :
    (fireTrigger st trig snapId now).snapshots = st.snapshots := rfl

theorem evalLoop_items (q : ℚ) (sid now : Nat) (trigs : List Trigger) (st : Store) :
    (evalTriggersLoop q sid now trigs st).items = st.items := by
  induction trigs generalizing st with
  | nil => rfl
  | cons trig rest ih =>
    rw [evalTriggersLoop]
    split
    · rw [ih]
      rfl
    · exact ih st

theorem evalLoop_snapshots (q : ℚ) (sid now : Nat) (trigs : List Trigger) (st : Store) :
    (evalTriggersLoop q sid now trigs st).snapshots = st.snapshots := by
  induction trigs generalizing st with
  | nil => rfl
  | cons trig rest ih =>
    rw [evalTriggersLoop]
    split
    · rw [ih]
      rfl
    · exact ih st

theorem evalLoop_nextId (q : ℚ) (sid now : Nat) (trigs : List Trigger) (st : Store) :
    (evalTriggersLoop q sid now trigs st).nextSnapshotId = st.nextSnapshotId := by
  induction trigs generalizing st with
  | nil => rfl
  | cons trig rest ih =>
    rw [evalTriggersLoop]
    split
    · rw [ih]
      rfl
    · exact ih st

theorem evalLoop_events (q : ℚ) (sid now : Nat) (trigs : List Trigger) (st : Store) :
    (evalTriggersLoop q sid now trigs st).triggerEvents
      = st.triggerEvents
        ++ (trigs.filter
              (fun t => t.lastFiredAt.isNone
                && meetsComparison q t.comparison t.threshold)).map
            (fun t => TriggerEvent.mk t.id sid) := by
  induction trigs generalizing st with
  | nil => simp [evalTriggersLoop]
  | cons trig rest ih =>
    rw [evalTriggersLoop]
    by_cases h : (trig.lastFiredAt.isNone
        && meetsComparison q trig.comparison trig.threshold) = true
    · rw [if_pos h, ih]
      simp [fireTrigger, List.filter_cons, h]
    · rw [if_neg h, ih]
      have h' : (trig.lastFiredAt.isNone
          && meetsComparison q trig.comparison trig.threshold) = false := by
        simpa using h
      simp [List.filter_cons, h']

theorem evalLoop_dormant (q : ℚ) (sid now : Nat) (trigs : List Trigger) (st : Store)
    (tid : Nat) (h : TriggerDormant st tid) :
    TriggerDormant (evalTriggersLoop q sid now trigs st) tid := by
  induction trigs generalizing st h with
  | nil => exact h
  | cons trig rest ih =>
    rw [evalTriggersLoop]
    by_cases hc : (trig.lastFiredAt.isNone
        && meetsComparison q trig.comparison trig.threshold) = true
    · rw [if_pos hc]
      refine ih _ ?_
      intro t' ht' htid
      obtain ⟨t, ht, rfl⟩ := List.mem_map.1 ht'
      by_cases hid : t.id = trig.id
      · simp [hid]
      · simpa [hid] using h t ht (by simpa [hid] using htid)
    · rw [if_neg hc]
      exact ih st h

theorem fireTrigger_dormant (st : Store) (trig : Trigger) (sid now : Nat) :
    TriggerDormant (fireTrigger st trig sid now) trig.id := by
  intro t' ht' htid
  obtain ⟨t, _, rfl⟩ := List.mem_map.1 ht'
  by_cases hid : t.id = trig.id
  · simp [hid]
  · simp [hid] at htid

theorem evalLoop_fired_dormant (q : ℚ) (sid now : Nat) (trigs : List Trigger)
    (st : Store) (trig : Trigger) (hmem : trig ∈ trigs)
    (hcond : (trig.lastFiredAt.isNone
      && meetsComparison q trig.comparison trig.threshold) = true) :
    TriggerDormant (evalTriggersLoop q sid now trigs st) trig.id := by
  induction trigs generalizing st with
  | nil => cases hmem
  | cons head rest ih =>
    rw [evalTriggersLoop]
    rcases List.mem_cons.1 hmem with hhd | htl
    · subst hhd
      rw [if_pos hcond]
      exact evalLoop_dormant q sid now rest _ trig.id (fireTrigger_dormant st trig sid now)
    · split
      · exact ih _ htl
      · exact ih st htl

theorem evalLoop_eventsFor_dormant (q : ℚ) (sid now : Nat) (trigs : List Trigger)
    (st : Store) (tid : Nat)
    (h : ∀ trig ∈ trigs, trig.id = tid → trig.lastFiredAt.isSome) :
    eventsFor (evalTriggersLoop q sid now trigs st) tid = eventsFor st tid := by
  unfold eventsFor
  rw [evalLoop_events, List.filter_append, List.length_append]
  have hnil : ((trigs.filter
      (fun t => t.lastFiredAt.isNone
        && meetsComparison q t.comparison t.threshold)).map
      (fun t => TriggerEvent.mk t.id sid)).filter (fun e => e.triggerId == tid) = [] := by
    rw [List.filter_eq_nil_iff]
    intro e he
    obtain ⟨t, htf, rfl⟩ := List.mem_map.1 he
    obtain ⟨htmem, htcond⟩ := List.mem_filter.1 htf
    intro habs
    have htid : t.id = tid := by simpa using habs
    have hsome := h t htmem htid
    simp only [Bool.and_eq_true] at htcond
    have hnone : t.lastFiredAt.isNone = true := htcond.1
    simp [Option.isNone_iff_eq_none.1 hnone] at hsome
  rw [hnil]
  simp

/-! ## Lemmas about the Extraction Pipeline -/

theorem processTrackedItem_not_found (env : ExtractionEnv) (st : Store) (id now : Nat)
    (h : st.items.find? (fun it => it.id == id) = none) :
    processTrackedItem env st id now = st := by
  simp [processTrackedItem, h]

theorem processTrackedItem_items (env : ExtractionEnv) (st : Store) (id now : Nat) :
    (processTrackedItem env st id now).items = st.items := by
  cases hfind : st.items.find? (fun it => it.id == id) with
  | none => simp [processTrackedItem, hfind]
  | some item =>
    cases hext : extractedText env item with
    | error e => simp [processTrackedItem, hfind, hext, Store.createSnapshot]
    | ok ot =>
      cases ot with
      | none => simp [processTrackedItem, hfind, hext, Store.createSnapshot]
      | some text =>
        cases hq : parseNumericFromText text with
        | none => simp [processTrackedItem, hfind, hext, hq, Store.createSnapshot]
        | some q =>
          simp [processTrackedItem, hfind, hext, hq, Store.createSnapshot, evalLoop_items]

theorem processTrackedItem_creates_one (env : ExtractionEnv) (st : Store) (id now : Nat)
    (item : TrackedItem) (hfind : st.items.find? (fun it => it.id == id) = some item) :
    ∃ s : Snapshot, (processTrackedItem env st id now).snapshots = st.snapshots ++ [s]
      ∧ s.trackedItemId = item.id := by
  cases hext : extractedText env item with
  | error e =>
    exact ⟨⟨st.nextSnapshotId, item.id, "", none, .error⟩,
      by simp [processTrackedItem, hfind, hext, Store.createSnapshot], rfl⟩
  | ok ot =>
    cases ot with
    | none =>
      exact ⟨⟨st.nextSnapshotId, item.id, "", none, .missing⟩,
        by simp [processTrackedItem, hfind, hext, Store.createSnapshot], rfl⟩
    | some text =>
      cases hq : parseNumericFromText text with
      | none =>
        exact ⟨⟨st.nextSnapshotId, item.id, text, none, .ok⟩,
          by simp [processTrackedItem, hfind, hext, hq, Store.createSnapshot], rfl⟩
      | some q =>
        exact ⟨⟨st.nextSnapshotId, item.id, text, some q, .ok⟩,
          by simp [processTrackedItem, hfind, hext, hq, Store.createSnapshot,
            evalLoop_snapshots], rfl⟩

theorem processTrackedItem_ok_numeric (env : ExtractionEnv) (st : Store) (id now : Nat)
    (item : TrackedItem) (text : String) (q : ℚ)
    (hfind : st.items.find? (fun it => it.id == id) = some item)
    (hext : extractedText env item = .ok (some text))
    (hq : parseNumericFromText text = some q) :
    processTrackedItem env st id now
      = evalTriggersLoop q st.nextSnapshotId now (activeTriggersFor st item.id)
          (st.createSnapshot item.id text (some q) .ok).1 := by
  simp [processTrackedItem, hfind, hext, hq, Store.createSnapshot, activeTriggersFor]

theorem processTrackedItem_error_eq (env : ExtractionEnv) (st : Store) (id now : Nat)
    (item : TrackedItem) (hfind : st.items.find? (fun it => it.id == id) = some item)
    (hext : extractedText env item = .error ()) :
    processTrackedItem env st id now = (st.createSnapshot item.id "" none .error).1 := by
  simp [processTrackedItem, hfind, hext, Store.createSnapshot]

theorem processTrackedItem_missing_eq (env : ExtractionEnv) (st : Store) (id now : Nat)
    (item : TrackedItem) (hfind : st.items.find? (fun it => it.id == id) = some item)
    (hext : extractedText env item = .ok none) :
    processTrackedItem env st id now = (st.createSnapshot item.id "" none .missing).1 := by
  simp [processTrackedItem, hfind, hext, Store.createSnapshot]

theorem processTrackedItem_ok_nonnumeric_eq (env : ExtractionEnv) (st : Store)
    (id now : Nat) (item : TrackedItem) (text : String)
    (hfind : st.items.find? (fun it => it.id == id) = some item)
    (hext : extractedText env item = .ok (some text))
    (hq : parseNumericFromText text = none) :
    processTrackedItem env st id now = (st.createSnapshot item.id text none .ok).1 := by
  simp [processTrackedItem, hfind, hext, hq, Store.createSnapshot]

theorem processTrackedItem_dormant (env : ExtractionEnv) (st : Store) (id now tid : Nat)
    (h : TriggerDormant st tid) :
    TriggerDormant (processTrackedItem env st id now) tid
      ∧ eventsFor (processTrackedItem env st id now) tid = eventsFor st tid := by
  cases hfind : st.items.find? (fun it => it.id == id) with
  | none =>
    rw [processTrackedItem_not_found env st id now hfind]
    exact ⟨h, rfl⟩
  | some item =>
    cases hext : extractedText env item with
    | error e =>
      rw [processTrackedItem_error_eq env st id now item hfind hext]
      exact ⟨fun t ht htid => h t ht htid, rfl⟩
    | ok ot =>
      cases ot with
      | none =>
        rw [processTrackedItem_missing_eq env st id now item hfind hext]
        exact ⟨fun t ht htid => h t ht htid, rfl⟩
      | some text =>
        cases hq : parseNumericFromText text with
        | none =>
          rw [processTrackedItem_ok_nonnumeric_eq env st id now item text hfind hext hq]
          exact ⟨fun t ht htid => h t ht htid, rfl⟩
        | some q =>
          rw [processTrackedItem_ok_numeric env st id now item text q hfind hext hq]
          have hdorm1 : TriggerDormant (st.createSnapshot item.id text (some q) .ok).1 tid :=
            fun t ht htid => h t ht htid
          have hsub : ∀ trig ∈ activeTriggersFor st item.id,
              trig.id = tid → trig.lastFiredAt.isSome := by
            intro trig htrig htid
            exact h trig (List.mem_filter.1 htrig).1 htid
          refine ⟨evalLoop_dormant _ _ _ _ _ _ hdorm1, ?_⟩
          have hev := evalLoop_eventsFor_dormant q st.nextSnapshotId now
            (activeTriggersFor st item.id)
            (st.createSnapshot item.id text (some q) .ok).1 tid hsub
          rw [hev]
          rfl

theorem runAll_dormant (invs : List Invocation) (st : Store) (tid : Nat)
    (h : TriggerDormant st tid) :
    TriggerDormant (runAll invs st) tid
      ∧ eventsFor (runAll invs st) tid = eventsFor st tid := by
  induction invs generalizing st h with
  | nil => exact ⟨h, rfl⟩
  | cons inv rest ih =>
    have hstep := processTrackedItem_dormant inv.env st inv.itemId inv.now tid h
    have hrest := ih _ hstep.1
    exact ⟨hrest.1, by rw [runAll, hrest.2, hstep.2]⟩

/-! ## Lemmas about the static tier -/

theorem fetchHtml_first_ok (attempt : Nat → FetchAttempt) (b : String)
    (h : attempt 0 = .success b) : fetchHtml attempt 1 0 = .ok b := by
  rw [fetchHtml, h]

theorem fetchHtml_retry_ok (attempt : Nat → FetchAttempt) (b : String)
    (h0 : attempt 0 = .failure) (h1 : attempt 1 = .success b) :
    fetchHtml attempt 1 0 = .ok b := by
  rw [fetchHtml, h0, fetchHtml, h1]

theorem fetchHtml_both_fail (attempt : Nat → FetchAttempt)
    (h0 : attempt 0 = .failure) (h1 : attempt 1 = .failure) :
    fetchHtml attempt 1 0 = .error () := by
  rw [fetchHtml, h0, fetchHtml, h1]

theorem tryStaticScrape_none_iff (env : StaticEnv) (selector : String) :
    tryStaticScrape env selector = none ↔
      fetchHtml env.attempt 1 0 = .error ()
      ∨ ∃ html, fetchHtml env.attempt 1 0 = .ok html
          ∧ (env.parse html selector = []
             ∨ ∃ el rest, env.parse html selector = el :: rest
                 ∧ jsTrim el.innerText = "") := by
  cases hfetch : fetchHtml env.attempt 1 0 with
  | error e =>
    cases e
    simp [tryStaticScrape, hfetch]
  | ok html =>
    cases hels : env.parse html selector with
    | nil => simp [tryStaticScrape, hfetch, hels]
    | cons el rest =>
      by_cases htext : jsTrim el.innerText = ""
      · simp [tryStaticScrape, hfetch, hels, htext]
      · simp [tryStaticScrape, hfetch, hels, htext]

theorem tryStaticScrape_some_iff (env : StaticEnv) (selector text : String) :
    tryStaticScrape env selector = some text ↔
      ∃ html el rest, fetchHtml env.attempt 1 0 = .ok html
        ∧ env.parse html selector = el :: rest
        ∧ jsTrim el.innerText = text ∧ text ≠ "" := by
  cases hfetch : fetchHtml env.attempt 1 0 with
  | error e =>
    cases e
    simp [tryStaticScrape, hfetch]
  | ok html =>
    cases hels : env.parse html selector with
    | nil => simp [tryStaticScrape, hfetch, hels]
    | cons el rest =>
      by_cases htext : jsTrim el.innerText = ""
      · constructor
        · intro hnone
          exfalso
          simp [tryStaticScrape, hfetch, hels, htext] at hnone
        · rintro ⟨html', el', rest', hok, hcons, htext', hne⟩
          injection hok with hh
          subst hh
          rw [hels] at hcons
          injection hcons with he hr
          subst he
          exact absurd (htext'.symm.trans htext) hne
      · constructor
        · intro hsome
          have hval : some (jsTrim el.innerText) = some text := by
            simpa [tryStaticScrape, hfetch, hels, htext] using hsome
          injection hval with htx
          exact ⟨html, el, rest, rfl, hels, htx, htx ▸ htext⟩
        · rintro ⟨html', el', rest', hok, hcons, htext', hne⟩
          injection hok with hh
          subst hh
          rw [hels] at hcons
          injection hcons with he hr
          subst he
          simp [tryStaticScrape, hfetch, hels, htext, htext', hne]

/-! ## Lemmas about the Numeric Parser -/

theorem isWs_not_digit (c : Char) (h : isWsChar c = true) : c.isDigit = false := by
  simp only [isWsChar, Bool.or_eq_true, decide_eq_true_eq] at h
  rcases h with ((((h | h) | h) | h) | h) | h <;> subst h <;> decide

theorem digit_ne_minus (c : Char) (h : c.isDigit = true) : ¬(c = '-') := by
  intro e
  subst e
  exact absurd h (by decide)

theorem digit_ne_comma (c : Char) (h : c.isDigit = true) : ¬(c = ',') := by
  intro e
  subst e
  exact absurd h (by decide)

theorem collapseWsAux_any_digit (b : Bool) (cs : List Char) :
    (collapseWsAux b cs).any Char.isDigit = cs.any Char.isDigit := by
  induction cs generalizing b with
  | nil => rfl
  | cons c cs ih =>
    by_cases hws : isWsChar c = true
    · have hd := isWs_not_digit c hws
      have hsp : (' ' : Char).isDigit = false := by decide
      rw [collapseWsAux, if_pos hws]
      cases b
      · simp [List.any_cons, hd, hsp, ih]
      · simp [List.any_cons, hd, hsp, ih]
    · rw [collapseWsAux, if_neg hws]
      simp [List.any_cons, ih]

theorem collapseWs_any_digit (cs : List Char) :
    (collapseWs cs).any Char.isDigit = cs.any Char.isDigit :=
  collapseWsAux_any_digit false cs

theorem tokenAt_none_of_no_digit (cs : List Char) (h : cs.any Char.isDigit = false) :
    tokenAt cs = none := by
  cases cs with
  | nil => rfl
  | cons c cs' =>
    rw [List.any_cons, Bool.or_eq_false_iff] at h
    by_cases hc : c = '-'
    · subst hc
      cases cs' with
      | nil => rfl
      | cons d cs'' =>
        have h2 := h.2
        rw [List.any_cons, Bool.or_eq_false_iff] at h2
        simp [tokenAt, h2.1]
    · simp [tokenAt, hc, h.1]

theorem firstToken_none_of_no_digit (cs : List Char) (h : cs.any Char.isDigit = false) :
    firstToken cs = none := by
  induction cs with
  | nil => rfl
  | cons c cs ih =>
    rw [firstToken, tokenAt_none_of_no_digit _ h]
    rw [List.any_cons, Bool.or_eq_false_iff] at h
    exact ih h.2

theorem tokenAt_isSome_of_digit (c : Char) (cs : List Char) (h : c.isDigit = true) :
    (tokenAt (c :: cs)).isSome = true := by
  simp [tokenAt, digit_ne_minus c h, h]

theorem firstToken_isSome_of_digit (cs : List Char) (h : cs.any Char.isDigit = true) :
    (firstToken cs).isSome = true := by
  induction cs with
  | nil => simp [List.any_nil] at h
  | cons c cs ih =>
    rw [firstToken]
    cases htok : tokenAt (c :: cs) with
    | some tok => simp
    | none =>
      cases hcd : c.isDigit with
      | true =>
        exfalso
        have hs := tokenAt_isSome_of_digit c cs hcd
        rw [htok] at hs
        simp at hs
      | false =>
        rw [List.any_cons, hcd, Bool.false_or] at h
        exact ih h

theorem takeWhile_append_all (p : Char → Bool) (xs ys : List Char)
    (h : xs.all p = true) : (xs ++ ys).takeWhile p = xs ++ ys.takeWhile p := by
  induction xs with
  | nil => rfl
  | cons x xs ih =>
    rw [List.all_cons, Bool.and_eq_true] at h
    simp [List.takeWhile_cons, h.1, ih h.2]

theorem dropWhile_append_all (p : Char → Bool) (xs ys : List Char)
    (h : xs.all p = true) : (xs ++ ys).dropWhile p = ys.dropWhile p := by
  induction xs with
  | nil => rfl
  | cons x xs ih =>
    rw [List.all_cons, Bool.and_eq_true] at h
    simp [List.dropWhile_cons, h.1, ih h.2]

theorem takeWhile_all_self (p : Char → Bool) (xs : List Char)
    (h : xs.all p = true) : xs.takeWhile p = xs := by
  induction xs with
  | nil => rfl
  | cons x xs ih =>
    rw [List.all_cons, Bool.and_eq_true] at h
    simp [List.takeWhile_cons, h.1, ih h.2]

theorem dropWhile_all_nil (p : Char → Bool) (xs : List Char)
    (h : xs.all p = true) : xs.dropWhile p = [] := by
  induction xs with
  | nil => rfl
  | cons x xs ih =>
    rw [List.all_cons, Bool.and_eq_true] at h
    simp [List.dropWhile_cons, h.1, ih h.2]

theorem all_takeWhile (p : Char → Bool) (xs : List Char) :
    (xs.takeWhile p).all p = true := by
  induction xs with
  | nil => rfl
  | cons x xs ih =>
    rw [List.takeWhile_cons]
    cases hx : p x with
    | true => simp [List.all_cons, hx, ih]
    | false => rfl

theorem stripCommas_cons_of_ne (c : Char) (cs : List Char) (h : ¬(c = ',')) :
    stripCommas (c :: cs) = c :: stripCommas cs := by
  simp [stripCommas, List.filter_cons, h]

theorem stripCommas_append (xs ys : List Char) :
    stripCommas (xs ++ ys) = stripCommas xs ++ stripCommas ys := by
  simp [stripCommas, List.filter_append]

theorem stripCommas_of_no_comma (cs : List Char) (h : ∀ c ∈ cs, ¬(c = ',')) :
    stripCommas cs = cs := by
  induction cs with
  | nil => rfl
  | cons c cs ih =>
    rw [stripCommas_cons_of_ne c cs (h c (List.mem_cons_self c cs))]
    rw [ih (fun x hx => h x (List.mem_cons_of_mem c hx))]

theorem stripCommas_digits (grp : List Char) (h : grp.all isDigitOrComma = true) :
    (stripCommas grp).all Char.isDigit = true := by
  rw [List.all_eq_true]
  intro c hc
  obtain ⟨hmem, hne⟩ := List.mem_filter.1 hc
  have hdc : isDigitOrComma c = true := List.all_eq_true.1 h c hmem
  rw [isDigitOrComma, Bool.or_eq_true] at hdc
  rcases hdc with hd | hcm
  · exact hd
  · exfalso
    have : ¬(c = ',') := by simpa using hne
    exact this (by simpa using hcm)

/-- The shape of every token returned by the embedded regex engine: an
optional sign, a mandatory first digit, a digit-or-comma run, and an
optional dot-digits fraction. -/
def TokenShaped (tok : List Char) : Prop :=
  ∃ (neg : Bool) (d : Char) (grp fr : List Char),
    tok = (if neg then ['-'] else []) ++ d :: (grp ++ fr)
    ∧ d.isDigit = true ∧ grp.all isDigitOrComma = true
    ∧ (fr = [] ∨ ∃ e fs, fr = '.' :: e :: fs ∧ e.isDigit = true
        ∧ fs.all Char.isDigit = true)

theorem fracPart_shape (rest : List Char) :
    fracPart rest = [] ∨ ∃ e fs, fracPart rest = '.' :: e :: fs
      ∧ e.isDigit = true ∧ fs.all Char.isDigit = true := by
  match rest with
  | [] => exact Or.inl rfl
  | [c] => exact Or.inl rfl
  | c :: d :: cs' =>
    by_cases hdot : c = '.'
    · by_cases hd : d.isDigit = true
      · right
        exact ⟨d, cs'.takeWhile Char.isDigit, by simp [fracPart, hdot, hd], hd,
          all_takeWhile Char.isDigit cs'⟩
      · left
        simp [fracPart, hdot, hd]
    · left
      simp [fracPart, hdot]

theorem tokenAt_shaped (cs tok : List Char) (h : tokenAt cs = some tok) :
    TokenShaped tok := by
  cases cs with
  | nil => exact absurd h (by simp [tokenAt])
  | cons c cs' =>
    by_cases hc : c = '-'
    · subst hc
      cases cs' with
      | nil => exact absurd h (by simp [tokenAt])
      | cons d cs'' =>
        by_cases hd : d.isDigit = true
        · have h' : some ('-' :: d :: (cs''.takeWhile isDigitOrComma
              ++ fracPart (cs''.dropWhile isDigitOrComma))) = some tok := by
            rw [← h]
            simp [tokenAt, hd]
          injection h' with h''
          refine ⟨true, d, cs''.takeWhile isDigitOrComma,
            fracPart (cs''.dropWhile isDigitOrComma), ?_, hd,
            all_takeWhile isDigitOrComma cs'',
            fracPart_shape (cs''.dropWhile isDigitOrComma)⟩
          rw [← h'']
          simp
        · exact absurd h (by simp [tokenAt, hd])
    · by_cases hdc : c.isDigit = true
      · have h' : some (c :: (cs'.takeWhile isDigitOrComma
            ++ fracPart (cs'.dropWhile isDigitOrComma))) = some tok := by
          rw [← h]
          simp [tokenAt, hc, hdc]
        injection h' with h''
        refine ⟨false, c, cs'.takeWhile isDigitOrComma,
          fracPart (cs'.dropWhile isDigitOrComma), ?_, hdc,
          all_takeWhile isDigitOrComma cs',
          fracPart_shape (cs'.dropWhile isDigitOrComma)⟩
        rw [← h'']
        simp
      · exact absurd h (by simp [tokenAt, hc, hdc])

theorem firstToken_shaped (cs tok : List Char) (h : firstToken cs = some tok) :
    TokenShaped tok := by
  induction cs with
  | nil => exact absurd h (by simp [firstToken])
  | cons c cs ih =>
    rw [firstToken] at h
    cases htok : tokenAt (c :: cs) with
    | some t =>
      rw [htok] at h
      have h2 : some t = some tok := h
      injection h2 with h3
      exact h3 ▸ tokenAt_shaped _ _ htok
    | none =>
      rw [htok] at h
      exact ih h

theorem numberMagnitude_digits_frac (ds fr : List Char)
    (hds : ds.all Char.isDigit = true) (hne : ds ≠ [])
    (hfr : fr = [] ∨ ∃ e fs, fr = '.' :: e :: fs ∧ e.isDigit = true
        ∧ fs.all Char.isDigit = true) :
    numberMagnitude? (ds ++ fr) = some (decimalMagnitude (ds ++ fr)) := by
  have hemp : ds.isEmpty = false := by
    cases ds with
    | nil => exact absurd rfl hne
    | cons x xs => rfl
  rcases hfr with rfl | ⟨e, fs, rfl, he, hfs⟩
  · have h1 : ds.takeWhile Char.isDigit = ds := takeWhile_all_self _ _ hds
    have h2 : ds.dropWhile Char.isDigit = [] := dropWhile_all_nil _ _ hds
    simp only [numberMagnitude?, decimalMagnitude, List.append_nil, h1, h2]
    simp [hemp]
  · have hdot : ('.' : Char).isDigit = false := by decide
    have h1 : (ds ++ '.' :: e :: fs).takeWhile Char.isDigit = ds := by
      rw [takeWhile_append_all _ _ _ hds]
      simp [List.takeWhile_cons, hdot]
    have h2 : (ds ++ '.' :: e :: fs).dropWhile Char.isDigit = '.' :: e :: fs := by
      rw [dropWhile_append_all _ _ _ hds]
      simp [List.dropWhile_cons, hdot]
    have hall : (e :: fs).all Char.isDigit = true := by
      simp [List.all_cons, he, hfs]
    simp only [numberMagnitude?, decimalMagnitude, h1, h2]
    simp [hall, hemp]

theorem numberValue_token (tok : List Char) (hshape : TokenShaped tok) :
    numberValue? (stripCommas tok) = some (decimalValueOfToken (stripCommas tok)) := by
  obtain ⟨neg, d, grp, fr, rfl, hd, hgrp, hfr⟩ := hshape
  have hfr_nc : stripCommas fr = fr := by
    apply stripCommas_of_no_comma
    rcases hfr with rfl | ⟨e, fs, rfl, he, hfs⟩
    · intro c hc
      cases hc
    · intro c hc
      rcases List.mem_cons.1 hc with rfl | hc2
      · decide
      · rcases List.mem_cons.1 hc2 with rfl | hc3
        · exact digit_ne_comma c he
        · exact digit_ne_comma c (List.all_eq_true.1 hfs c hc3)
  have hsg : (stripCommas grp).all Char.isDigit = true := stripCommas_digits grp hgrp
  have hbody : stripCommas (d :: (grp ++ fr))
      = (d :: stripCommas grp) ++ fr := by
    rw [stripCommas_cons_of_ne d _ (digit_ne_comma d hd), stripCommas_append, hfr_nc]
    rfl
  have hdsall : (d :: stripCommas grp).all Char.isDigit = true := by
    simp [List.all_cons, hd, hsg]
  have hdsne : (d :: stripCommas grp) ≠ [] := by
    intro habs
    cases habs
  have hmag := numberMagnitude_digits_frac (d :: stripCommas grp) fr hdsall hdsne
    (by
      rcases hfr with rfl | ⟨e, fs, rfl, he, hfs⟩
      · exact Or.inl rfl
      · exact Or.inr ⟨e, fs, rfl, he, hfs⟩)
  cases neg with
  | false =>
    have hif : ((if (false : Bool) then ['-'] else []) ++ d :: (grp ++ fr))
        = d :: (grp ++ fr) := rfl
    rw [hif, hbody, List.cons_append]
    simp only [numberValue?, decimalValueOfToken]
    have hdm : ¬(d = '-') := digit_ne_minus d hd
    rw [if_neg hdm, if_neg hdm, ← List.cons_append]
    exact hmag
  | true =>
    have hif : ((if (true : Bool) then ['-'] else []) ++ d :: (grp ++ fr))
        = '-' :: (d :: (grp ++ fr)) := rfl
    rw [hif, stripCommas_cons_of_ne '-' _ (by decide), hbody]
    simp only [numberValue?, decimalValueOfToken]
    rw [if_pos trivial, if_pos trivial, hmag]
    rfl

theorem parse_eq_decimal_of_firstToken (t : String) (tok : List Char)
    (h : firstToken (collapseWs t.data) = some tok) :
    parseNumericFromText t = some (decimalValueOfToken (stripCommas tok)) := by
  simp only [parseNumericFromText, h]
  exact numberValue_token tok (firstToken_shaped _ _ h)

theorem parse_none_of_no_digit (t : String) (h : t.data.any Char.isDigit = false) :
    parseNumericFromText t = none := by
  have h2 : (collapseWs t.data).any Char.isDigit = false := by
    rw [collapseWs_any_digit]
    exact h
  simp [parseNumericFromText, firstToken_none_of_no_digit _ h2]

theorem parse_isSome_of_digit (t : String) (h : t.data.any Char.isDigit = true) :
    (parseNumericFromText t).isSome = true := by
  have h2 : (collapseWs t.data).any Char.isDigit = true := by
    rw [collapseWs_any_digit]
    exact h
  have h3 := firstToken_isSome_of_digit _ h2
  cases htok : firstToken (collapseWs t.data) with
  | none =>
    rw [htok] at h3
    simp at h3
  | some tok =>
    simp only [parseNumericFromText, htok]
    rw [numberValue_token tok (firstToken_shaped _ _ htok)]
    rfl

theorem digit_not_ws (c : Char) (h : c.isDigit = true) : isWsChar c = false := by
  cases hw : isWsChar c with
  | false => rfl
  | true =>
    rw [isWs_not_digit c hw] at h
    cases h

theorem collapseWsAux_no_ws (b : Bool) (cs : List Char)
    (h : ∀ c ∈ cs, isWsChar c = false) : collapseWsAux b cs = cs := by
  induction cs generalizing b with
  | nil => rfl
  | cons c cs ih =>
    rw [collapseWsAux, if_neg (by simp [h c (List.mem_cons_self c cs)])]
    rw [ih false (fun x hx => h x (List.mem_cons_of_mem c hx))]

theorem numberMagnitude_all_digits (xs : List Char) (h : xs.all Char.isDigit = true)
    (hne : xs ≠ []) : numberMagnitude? xs = some (mkRat (digitsVal xs) 1) := by
  have h1 := takeWhile_all_self Char.isDigit xs h
  have h2 := dropWhile_all_nil Char.isDigit xs h
  have hemp : xs.isEmpty = false := by
    cases xs with
    | nil => exact absurd rfl hne
    | cons x xs => rfl
  simp only [numberMagnitude?, h1, h2]
  simp [hemp]

theorem all_digitOrComma_of_digits (xs : List Char) (h : xs.all Char.isDigit = true) :
    xs.all isDigitOrComma = true := by
  rw [List.all_eq_true] at h ⊢
  intro c hc
  rw [isDigitOrComma, Bool.or_eq_true]
  exact Or.inl (h c hc)

theorem tokenAt_all_digitOrComma (d : Char) (X : List Char) (hd : d.isDigit = true)
    (hX : X.all isDigitOrComma = true) : tokenAt (d :: X) = some (d :: X) := by
  simp [tokenAt, digit_ne_minus d hd, hd, takeWhile_all_self _ _ hX,
    dropWhile_all_nil _ _ hX, fracPart]

theorem firstToken_all_digitOrComma (d : Char) (X : List Char) (hd : d.isDigit = true)
    (hX : X.all isDigitOrComma = true) : firstToken (d :: X) = some (d :: X) := by
  rw [firstToken, tokenAt_all_digitOrComma d X hd hX]

theorem stripCommas_comma_cons (cs : List Char) :
    stripCommas (',' :: cs) = stripCommas cs := by
  simp [stripCommas, List.filter_cons]

theorem stripCommas_all_digits (cs : List Char) (h : cs.all Char.isDigit = true) :
    stripCommas cs = cs :=
  stripCommas_of_no_comma cs
    (fun c hc => digit_ne_comma c (List.all_eq_true.1 h c hc))

/-! ## Lemmas about the Snapshot invariant and the routes -/

theorem snapInvariant_createSnapshot (st : Store) (itemId : Nat) (raw : String)
    (num : Option ℚ) (status : SnapStatus) (h : SnapInvariant st)
    (hok : status ≠ SnapStatus.ok → raw = "" ∧ num = none) :
    SnapInvariant (st.createSnapshot itemId raw num status).1 := by
  intro s hs hstat
  rcases List.mem_append.1 hs with h1 | h2
  · exact h s h1 hstat
  · have heq : s = ⟨st.nextSnapshotId, itemId, raw, num, status⟩ := by
      simpa using h2
    subst heq
    exact hok hstat

theorem processTrackedItem_snapInvariant (env : ExtractionEnv) (st : Store)
    (id now : Nat) (h : SnapInvariant st) :
    SnapInvariant (processTrackedItem env st id now) := by
  cases hfind : st.items.find? (fun it => it.id == id) with
  | none =>
    rw [processTrackedItem_not_found env st id now hfind]
    exact h
  | some item =>
    cases hext : extractedText env item with
    | error e =>
      cases e
      rw [processTrackedItem_error_eq env st id now item hfind hext]
      exact snapInvariant_createSnapshot st item.id "" none .error h (fun _ => ⟨rfl, rfl⟩)
    | ok ot =>
      cases ot with
      | none =>
        rw [processTrackedItem_missing_eq env st id now item hfind hext]
        exact snapInvariant_createSnapshot st item.id "" none .missing h (fun _ => ⟨rfl, rfl⟩)
      | some text =>
        cases hq : parseNumericFromText text with
        | none =>
          rw [processTrackedItem_ok_nonnumeric_eq env st id now item text hfind hext hq]
          exact snapInvariant_createSnapshot st item.id text none .ok h
            (fun hst => absurd rfl hst)
        | some q =>
          rw [processTrackedItem_ok_numeric env st id now item text q hfind hext hq]
          intro s hs hstat
          rw [evalLoop_snapshots] at hs
          exact snapInvariant_createSnapshot st item.id text (some q) .ok h
            (fun hst => absurd rfl hst) s hs hstat

theorem postSnapshot_snapshots (st : Store) (itemId : Nat) (raw : String) (now : Nat) :
    (postSnapshot st itemId raw now).2.snapshots = st.snapshots
      ∨ (postSnapshot st itemId raw now).2.snapshots
          = st.snapshots
            ++ [⟨st.nextSnapshotId, itemId, raw, parseNumericFromText raw, .ok⟩] := by
  cases hfind : st.items.find? (fun it => it.id == itemId) with
  | none =>
    left
    simp [postSnapshot, hfind]
  | some item =>
    by_cases hraw : raw = ""
    · left
      simp [postSnapshot, hfind, hraw]
    · right
      cases hq : parseNumericFromText raw with
      | none => simp [postSnapshot, hfind, hraw, hq, Store.createSnapshot]
      | some q =>
        simp [postSnapshot, hfind, hraw, hq, Store.createSnapshot, evalLoop_snapshots]

theorem postSnapshot_snapInvariant (st : Store) (itemId : Nat) (raw : String)
    (now : Nat) (h : SnapInvariant st) :
    SnapInvariant (postSnapshot st itemId raw now).2 := by
  intro s hs hstat
  rcases postSnapshot_snapshots st itemId raw now with heq | heq
  · rw [heq] at hs
    exact h s hs hstat
  · rw [heq] at hs
    rcases List.mem_append.1 hs with h1 | h2
    · exact h s h1 hstat
    · have heq2 : s = ⟨st.nextSnapshotId, itemId, raw, parseNumericFromText raw, .ok⟩ := by
        simpa using h2
      subst heq2
      exact absurd rfl hstat

theorem repairSelector_snapshots (st : Store) (itemId : Nat) (propose : Proposer)
    (now : Nat) :
    (repairSelector st itemId propose now).2.snapshots = st.snapshots
      ∨ ∃ p : Proposal, (repairSelector st itemId propose now).2.snapshots
          = st.snapshots ++ [⟨st.nextSnapshotId, itemId, p.sampleText,
              (match p.valueNumeric with
               | some q => some q
               | none => parseNumericFromText p.sampleText), .ok⟩] := by
  by_cases hid : itemId = 0
  · left
    simp [repairSelector, hid]
  · cases hfind : st.items.find? (fun it => it.id == itemId) with
    | none =>
      left
      simp [repairSelector, hid, hfind]
    | some item =>
      cases hprop : propose item.url item.selector (bestSampleText st itemId item)
          item.fingerprint with
      | none =>
        left
        simp [repairSelector, hid, hfind, hprop]
      | some p =>
        right
        refine ⟨p, ?_⟩
        cases hnum : p.valueNumeric with
        | some q => simp [repairSelector, hid, hfind, hprop, hnum, Store.createSnapshot]
        | none => simp [repairSelector, hid, hfind, hprop, hnum, Store.createSnapshot]

theorem repairSelector_snapInvariant (st : Store) (itemId : Nat) (propose : Proposer)
    (now : Nat) (h : SnapInvariant st) :
    SnapInvariant (repairSelector st itemId propose now).2 := by
  intro s hs hstat
  rcases repairSelector_snapshots st itemId propose now with heq | ⟨p, heq⟩
  · rw [heq] at hs
    exact h s hs hstat
  · rw [heq] at hs
    rcases List.mem_append.1 hs with h1 | h2
    · exact h s h1 hstat
    · have heq2 : s = ⟨st.nextSnapshotId, itemId, p.sampleText,
          (match p.valueNumeric with
           | some q => some q
           | none => parseNumericFromText p.sampleText), .ok⟩ := by
        simpa using h2
      subst heq2
      exact absurd rfl hstat

theorem postFailure_snapshots (st : Store) (itemId now : Nat) :
    (postFailure st itemId now).2.snapshots = st.snapshots := by
  by_cases hid : itemId = 0
  · simp [postFailure, hid]
  · cases hfind : st.items.find? (fun it => it.id == itemId) with
    | none => simp [postFailure, hid, hfind]
    | some item => simp [postFailure, hid, hfind]

theorem postFailure_snapInvariant (st : Store) (itemId now : Nat)
    (h : SnapInvariant st) : SnapInvariant (postFailure st itemId now).2 := by
  intro s hs hstat
  rw [postFailure_snapshots] at hs
  exact h s hs hstat

/-! ## Further fixtures -/

def fpEx : Fingerprint := ⟨[⟨"div", ["a"], none⟩, ⟨"span", [], some 2⟩]⟩

def docTwo : Doc := docOf (cssFromFingerprint fpEx) [⟨"x"⟩, ⟨"y"⟩]

def itemSick : TrackedItem := { itemEx with consecutiveFailures := 5 }

def storeSick : Store :=
  { items := [itemSick], snapshots := [], triggers := [], triggerEvents := [],
    nextSnapshotId := 0 }

def storeFired : Store :=
  { storeEx with triggers := [{ triggerEx with lastFiredAt := some 5 }] }

def proposeEx : Proposer := fun _ _ _ _ => some ⟨".newprice", "$9.99", none, none⟩

def proposeNone : Proposer := fun _ _ _ _ => none

/-! ## Claim theorems -/

/-- C1: every invocation of the batch Extraction Pipeline on one
existing TrackedItem appends exactly one Snapshot row for that item —
never zero, never more — whichever path is taken (static success,
dynamic success, fingerprint fallback success, missing, or hard
extractor error). -/
theorem C1_exactly_one_snapshot (env : ExtractionEnv) (st : Store) (id now : Nat)
    (item : TrackedItem)
    (hfind : st.items.find? (fun it => it.id == id) = some item) :
    ∃ s : Snapshot, (processTrackedItem env st id now).snapshots = st.snapshots ++ [s]
      ∧ s.trackedItemId = item.id :=
  processTrackedItem_creates_one env st id now item hfind

/-- Witness for C1: one concrete pipeline invocation on an existing
item appends exactly one snapshot. -/
theorem C1_witness :
    storeEx.items.find? (fun it => it.id == 1) = some itemEx
      ∧ ∃ s : Snapshot,
        (processTrackedItem envPriceOk storeEx 1 5).snapshots = storeEx.snapshots ++ [s]
          ∧ s.trackedItemId = itemEx.id :=
  ⟨by decide, C1_exactly_one_snapshot envPriceOk storeEx 1 5 itemEx (by decide)⟩

/-- C4: the Fingerprint Matcher returns text only when its composite
selector matches exactly one element in the document and that element's
trimmed text is non-empty; whenever the selector matches zero or more
than one element it returns null. -/
theorem C4_fingerprint_single_match :
    (∀ (doc : Doc) (fpo : Option Fingerprint) (text : String),
        tryFingerprintFallback doc fpo = some text →
        ∃ fp, fpo = some fp ∧ ∃ el, doc (cssFromFingerprint fp) = [el]
          ∧ text = jsTrim el.innerText ∧ text ≠ "")
  ∧ (∀ (doc : Doc) (fp : Fingerprint),
      (doc (cssFromFingerprint fp)).length ≠ 1 →
      tryFingerprintFallback doc (some fp) = none) := by
  constructor
  · intro doc fpo text h
    cases fpo with
    | none => exact absurd h (by simp [tryFingerprintFallback])
    | some fp =>
      refine ⟨fp, rfl, ?_⟩
      by_cases hpath : fp.path.isEmpty = true
      · exact absurd h (by simp [tryFingerprintFallback, hpath])
      · by_cases hcss : cssFromFingerprint fp = ""
        · exact absurd h (by simp [tryFingerprintFallback, hpath, hcss])
        · cases hels : doc (cssFromFingerprint fp) with
          | nil =>
            exact absurd h (by simp [tryFingerprintFallback, hpath, hcss, hels])
          | cons el rest =>
            cases rest with
            | nil =>
              by_cases htext : jsTrim el.innerText = ""
              · exact absurd h
                  (by simp [tryFingerprintFallback, hpath, hcss, hels, htext])
              · have h2 : some (jsTrim el.innerText) = some text := by
                  rw [← h]
                  simp [tryFingerprintFallback, hpath, hcss, hels, htext]
                injection h2 with h3
                exact ⟨el, rfl, h3.symm, h3 ▸ htext⟩
            | cons el2 rest2 =>
              exact absurd h (by simp [tryFingerprintFallback, hpath, hcss, hels])
  · intro doc fp hlen
    by_cases hpath : fp.path.isEmpty = true
    · simp [tryFingerprintFallback, hpath]
    · by_cases hcss : cssFromFingerprint fp = ""
      · simp [tryFingerprintFallback, hpath, hcss]
      · cases hels : doc (cssFromFingerprint fp) with
        | nil => simp [tryFingerprintFallback, hpath, hcss, hels]
        | cons el rest =>
          cases rest with
          | nil =>
            exfalso
            apply hlen
            rw [hels]
            rfl
          | cons el2 rest2 =>
            simp [tryFingerprintFallback, hpath, hcss, hels]

/-- Witness for C4: an ambiguous (two-element) match makes the
Fingerprint Matcher return null. -/
theorem C4_witness :
    (docTwo (cssFromFingerprint fpEx)).length ≠ 1
      ∧ tryFingerprintFallback docTwo (some fpEx) = none :=
  ⟨by decide, C4_fingerprint_single_match.2 docTwo fpEx (by decide)⟩

/-- C9: every Snapshot-creating core operation (batch pipeline, manual
snapshot route, repair route, failure route) preserves the invariant
that a Snapshot with status missing or error has empty valueRaw and
null valueNumeric (equivalently, valueNumeric is present only on ok
Snapshots). -/
theorem C9_snapshot_invariant :
    (∀ (env : ExtractionEnv) (st : Store) (id now : Nat),
      SnapInvariant st → SnapInvariant (processTrackedItem env st id now))
  ∧ (∀ (st : Store) (itemId : Nat) (raw : String) (now : Nat),
      SnapInvariant st → SnapInvariant (postSnapshot st itemId raw now).2)
  ∧ (∀ (st : Store) (itemId : Nat) (propose : Proposer) (now : Nat),
      SnapInvariant st → SnapInvariant (repairSelector st itemId propose now).2)
  ∧ (∀ (st : Store) (itemId now : Nat),
      SnapInvariant st → SnapInvariant (postFailure st itemId now).2) :=
  ⟨processTrackedItem_snapInvariant, postSnapshot_snapInvariant,
   repairSelector_snapInvariant, postFailure_snapInvariant⟩

/-- Witness for C9: the invariant holds for a concrete store and is
preserved by one pipeline invocation (which here writes an ok snapshot)
and by one failure report. -/
theorem C9_witness :
    SnapInvariant storeEx
      ∧ SnapInvariant (processTrackedItem envPriceOk storeEx 1 5)
      ∧ SnapInvariant (postFailure storeEx 1 9).2 :=
  ⟨by intro s hs hstat; simp [storeEx] at hs,
   C9_snapshot_invariant.1 envPriceOk storeEx 1 5
     (by intro s hs hstat; simp [storeEx] at hs),
   C9_snapshot_invariant.2.2.2 storeEx 1 9
     (by intro s hs hstat; simp [storeEx] at hs)⟩

/-- C8 counterexample: the claim says the fragments are joined with
descendant combinators, but the code joins them with the child
combinator " > " — on a concrete two-node fingerprint the produced
selector differs from the descendant-combinator join. -/
theorem C8_counterexample :
    cssFromFingerprint fpEx = "div.a > span:nth-of-type(2)"
      ∧ cssFromFingerprint fpEx
          ≠ joinSep " " (fpEx.path.map cssFromNodeDescriptor) := by decide

/-- C8 (amended): the composite selector maps each Node Descriptor, in
order, to a fragment of tag (default div), non-empty classes, and an
:nth-of-type suffix exactly when nthOfType is positive, and joins the
fragments with the child combinator " > " (so intermediate elements
between listed nodes prevent matching). -/
theorem C8_css_structure :
    (∀ (n1 n2 : FingerprintNode) (ns : List FingerprintNode),
        cssFromFingerprint ⟨n1 :: n2 :: ns⟩
          = cssFromNodeDescriptor n1 ++ " > " ++ cssFromFingerprint ⟨n2 :: ns⟩)
  ∧ (∀ n : FingerprintNode, cssFromFingerprint ⟨[n]⟩ = cssFromNodeDescriptor n)
  ∧ cssFromFingerprint ⟨[]⟩ = ""
  ∧ (∀ (tag : String) (classes : List String) (k : Int), 0 < k →
      cssFromNodeDescriptor ⟨tag, classes, some k⟩
        = cssFromNodeDescriptor ⟨tag, classes, none⟩
            ++ ":nth-of-type(" ++ toString k ++ ")")
  ∧ (∀ (tag : String) (classes : List String) (k : Int), ¬(0 < k) →
      cssFromNodeDescriptor ⟨tag, classes, some k⟩
        = cssFromNodeDescriptor ⟨tag, classes, none⟩) := by
  refine ⟨?_, ?_, rfl, ?_, ?_⟩
  · intro n1 n2 ns
    simp [cssFromFingerprint, joinSep]
  · intro n
    simp [cssFromFingerprint, joinSep]
  · intro tag classes k hk
    simp [cssFromNodeDescriptor, hk]
  · intro tag classes k hk
    simp [cssFromNodeDescriptor, hk]

/-- Witness for C8's amended theorem: the child-combinator recurrence
and the positive nth-of-type suffix at concrete inputs. -/
theorem C8_witness :
    cssFromFingerprint ⟨[⟨"div", ["a"], none⟩, ⟨"span", [], some 2⟩]⟩
        = cssFromNodeDescriptor ⟨"div", ["a"], none⟩ ++ " > "
            ++ cssFromFingerprint ⟨[⟨"span", [], some 2⟩]⟩
      ∧ (0 : Int) < 2
      ∧ cssFromNodeDescriptor ⟨"span", [], some 2⟩
          = cssFromNodeDescriptor ⟨"span", [], none⟩
              ++ ":nth-of-type(" ++ toString (2 : Int) ++ ")" :=
  ⟨C8_css_structure.1 ⟨"div", ["a"], none⟩ ⟨"span", [], some 2⟩ [],
   by decide,
   C8_css_structure.2.2.2.1 "span" [] 2 (by decide)⟩

/-- C5 counterexample: when both fetch attempts fail, the Static
Extractor catches the error and returns null (it does not propagate a
NetworkError), and with the dynamic tier disabled the pipeline records
a missing — not error — Snapshot; so a hard static fetch failure is
not classified as error, and "returns null exactly when the fetch
succeeded but nothing matched" fails as well. -/
theorem C5_counterexample :
    fetchHtml envAllDown.static.attempt 1 0 = .error ()
      ∧ tryStaticScrape envAllDown.static itemEx.selector = none
      ∧ (processTrackedItem envAllDown storeEx 1 5).snapshots
          = [⟨0, 1, "", none, .missing⟩]
      ∧ SnapStatus.missing ≠ SnapStatus.error := by decide

/-- C5 (amended): the Static Extractor issues its GET with the fixed
descriptive client identifier and consults exactly two fetch attempts
(the original and one retry); when the retry also fails the error is
caught inside the extractor, which returns null so the pipeline falls
through to the dynamic tier — a static fetch failure alone yields a
missing Snapshot when the dynamic tier is disabled, never an error one;
and it returns null exactly when the fetch failed after the retry, the
selector matched zero elements, or the first match's trimmed text is
empty. -/
theorem C5_static_extractor_retry :
    (∀ (attempt : Nat → FetchAttempt) (b : String),
        (attempt 0 = .success b → fetchHtml attempt 1 0 = .ok b)
      ∧ (attempt 0 = .failure → attempt 1 = .success b →
          fetchHtml attempt 1 0 = .ok b))
  ∧ (∀ attempt : Nat → FetchAttempt,
      attempt 0 = .failure → attempt 1 = .failure →
      fetchHtml attempt 1 0 = .error ())
  ∧ (∀ (env : StaticEnv) (selector : String),
      tryStaticScrape env selector = none ↔
        fetchHtml env.attempt 1 0 = .error ()
        ∨ ∃ html, fetchHtml env.attempt 1 0 = .ok html
            ∧ (env.parse html selector = []
               ∨ ∃ el rest, env.parse html selector = el :: rest
                   ∧ jsTrim el.innerText = ""))
  ∧ (∀ (env : ExtractionEnv) (st : Store) (id now : Nat) (item : TrackedItem),
      st.items.find? (fun it => it.id == id) = some item →
      fetchHtml env.static.attempt 1 0 = .error () →
      env.enableDynamic = false →
      ∃ s : Snapshot, (processTrackedItem env st id now).snapshots
          = st.snapshots ++ [s] ∧ s.status = .missing)
  ∧ staticUserAgent = "Mozilla/5.0 (compatible; WebInterestTracker/0.1; +https://example.com)" := by
  refine ⟨?_, ?_, tryStaticScrape_none_iff, ?_, rfl⟩
  · intro attempt b
    exact ⟨fetchHtml_first_ok attempt b, fetchHtml_retry_ok attempt b⟩
  · exact fetchHtml_both_fail
  · intro env st id now item hfind hfetch hdyn
    have hstat : tryStaticScrape env.static item.selector = none :=
      (tryStaticScrape_none_iff env.static item.selector).2 (Or.inl hfetch)
    have hext : extractedText env item = .ok none := by
      simp [extractedText, hstat, tryDynamicScrape, hdyn]
    rw [processTrackedItem_missing_eq env st id now item hfind hext]
    exact ⟨⟨st.nextSnapshotId, item.id, "", none, .missing⟩, rfl, rfl⟩

/-- Witness for C5's amended theorem: both attempts failing produces a
hard error from fetchHtml, and the concrete pipeline run writes a
missing snapshot. -/
theorem C5_witness :
    fetchHtml (fun _ => FetchAttempt.failure) 1 0 = .error ()
      ∧ storeEx.items.find? (fun it => it.id == 1) = some itemEx
      ∧ ∃ s : Snapshot, (processTrackedItem envAllDown storeEx 1 5).snapshots
          = storeEx.snapshots ++ [s] ∧ s.status = .missing :=
  ⟨C5_static_extractor_retry.2.1 (fun _ => FetchAttempt.failure) rfl rfl,
   by decide,
   C5_static_extractor_retry.2.2.2.1 envAllDown storeEx 1 5 itemEx
     (by decide) (by decide) rfl⟩

theorem postSnapshot_items_eq (st : Store) (itemId : Nat) (raw : String) (now : Nat)
    (item : TrackedItem)
    (hfind : st.items.find? (fun it => it.id == itemId) = some item)
    (hraw : ¬(raw = "")) :
    (postSnapshot st itemId raw now).2.items
      = st.items.map (fun it => if it.id = item.id then
          { it with lastSuccessAt := some now, consecutiveFailures := 0, updatedAt := now }
        else it) := by
  cases hq : parseNumericFromText raw with
  | none => simp [postSnapshot, hfind, hraw, hq, Store.createSnapshot]
  | some q =>
    simp [postSnapshot, hfind, hraw, hq, Store.createSnapshot, evalLoop_items]

theorem postSnapshot_result_eq (st : Store) (itemId : Nat) (raw : String) (now : Nat)
    (item : TrackedItem)
    (hfind : st.items.find? (fun it => it.id == itemId) = some item)
    (hraw : ¬(raw = "")) :
    (postSnapshot st itemId raw now).1 = .created st.nextSnapshotId := by
  cases hq : parseNumericFromText raw with
  | none => simp [postSnapshot, hfind, hraw, hq, Store.createSnapshot]
  | some q => simp [postSnapshot, hfind, hraw, hq, Store.createSnapshot]

theorem postFailure_items_eq (st : Store) (itemId now : Nat) (item : TrackedItem)
    (hid : ¬(itemId = 0))
    (hfind : st.items.find? (fun it => it.id == itemId) = some item) :
    (postFailure st itemId now).2.items
      = st.items.map (fun it => if it.id = item.id then
          { it with consecutiveFailures := it.consecutiveFailures + 1, lastFailureAt := some now, updatedAt := now }
        else it) := by
  simp [postFailure, hid, hfind]

/-- C6 counterexample: the batch pipeline writes an ok Snapshot for an
item with consecutiveFailures = 5, yet the item's health fields are
untouched — consecutiveFailures stays 5 and lastSuccessAt stays null —
contradicting the claim that whenever an ok Snapshot is written the
item's health is reset. -/
theorem C6_counterexample :
    (processTrackedItem envPriceOk storeSick 1 5).snapshots
        = [⟨0, 1, "$19.99", some (mkRat 1999 100), .ok⟩]
      ∧ (processTrackedItem envPriceOk storeSick 1 5).items = [itemSick]
      ∧ itemSick.consecutiveFailures = 5
      ∧ itemSick.lastSuccessAt = none := by decide

/-- C6 (amended): the batch Extraction Pipeline leaves every item —
health fields included — unchanged on all outcomes (ok, missing and
error alike); an ok Snapshot written through the manual snapshot entry
point resets consecutiveFailures to 0 and sets lastSuccessAt (leaving
other items untouched); and only the failure-reporting entry point
mutates the failure counters, incrementing consecutiveFailures and
stamping lastFailureAt. -/
theorem C6_health_bookkeeping :
    (∀ (env : ExtractionEnv) (st : Store) (id now : Nat),
      (processTrackedItem env st id now).items = st.items)
  ∧ (∀ (st : Store) (itemId : Nat) (raw : String) (now : Nat) (item : TrackedItem),
      st.items.find? (fun it => it.id == itemId) = some item → ¬(raw = "") →
        (postSnapshot st itemId raw now).1 = .created st.nextSnapshotId
      ∧ (∀ it ∈ st.items, it.id = item.id →
          { it with lastSuccessAt := some now, consecutiveFailures := 0, updatedAt := now } ∈ (postSnapshot st itemId raw now).2.items)
      ∧ (∀ it ∈ st.items, ¬(it.id = item.id) →
          it ∈ (postSnapshot st itemId raw now).2.items))
  ∧ (∀ (st : Store) (itemId now : Nat) (item : TrackedItem),
      ¬(itemId = 0) →
      st.items.find? (fun it => it.id == itemId) = some item →
        (∀ it ∈ st.items, it.id = item.id →
          { it with consecutiveFailures := it.consecutiveFailures + 1, lastFailureAt := some now, updatedAt := now } ∈ (postFailure st itemId now).2.items)
      ∧ (∀ it ∈ st.items, ¬(it.id = item.id) →
          it ∈ (postFailure st itemId now).2.items)) := by
  refine ⟨processTrackedItem_items, ?_, ?_⟩
  · intro st itemId raw now item hfind hraw
    refine ⟨postSnapshot_result_eq st itemId raw now item hfind hraw, ?_, ?_⟩
    · intro it hit hid
      rw [postSnapshot_items_eq st itemId raw now item hfind hraw]
      have hmem := List.mem_map_of_mem (fun it => if it.id = item.id then
          { it with lastSuccessAt := some now, consecutiveFailures := 0, updatedAt := now }
        else it) hit
      simpa [hid] using hmem
    · intro it hit hid
      rw [postSnapshot_items_eq st itemId raw now item hfind hraw]
      have hmem := List.mem_map_of_mem (fun it => if it.id = item.id then
          { it with lastSuccessAt := some now, consecutiveFailures := 0, updatedAt := now }
        else it) hit
      simpa [hid] using hmem
  · intro st itemId now item hid0 hfind
    constructor
    · intro it hit hid
      rw [postFailure_items_eq st itemId now item hid0 hfind]
      have hmem := List.mem_map_of_mem (fun it => if it.id = item.id then
          { it with consecutiveFailures := it.consecutiveFailures + 1, lastFailureAt := some now, updatedAt := now }
        else it) hit
      simpa [hid] using hmem
    · intro it hit hid
      rw [postFailure_items_eq st itemId now item hid0 hfind]
      have hmem := List.mem_map_of_mem (fun it => if it.id = item.id then
          { it with consecutiveFailures := it.consecutiveFailures + 1, lastFailureAt := some now, updatedAt := now }
        else it) hit
      simpa [hid] using hmem

/-- Witness for C6's amended theorem: the manual snapshot entry point
applied to a concrete failing item resets its health fields. -/
theorem C6_witness :
    storeSick.items.find? (fun it => it.id == 1) = some itemSick
      ∧ ((postSnapshot storeSick 1 "v42" 9).1 = .created storeSick.nextSnapshotId
        ∧ (∀ it ∈ storeSick.items, it.id = itemSick.id →
            { it with lastSuccessAt := some 9, consecutiveFailures := 0, updatedAt := 9 } ∈ (postSnapshot storeSick 1 "v42" 9).2.items)
        ∧ (∀ it ∈ storeSick.items, ¬(it.id = itemSick.id) →
            it ∈ (postSnapshot storeSick 1 "v42" 9).2.items)) :=
  ⟨by decide,
   C6_health_bookkeeping.2.1 storeSick 1 "v42" 9 itemSick (by decide) (by decide)⟩

theorem repairSelector_no_proposal (st : Store) (itemId : Nat) (propose : Proposer)
    (now : Nat) (item : TrackedItem) (hid : ¬(itemId = 0))
    (hfind : st.items.find? (fun it => it.id == itemId) = some item)
    (hprop : propose item.url item.selector (bestSampleText st itemId item)
        item.fingerprint = none) :
    repairSelector st itemId propose now = (.noViableRepair, st) := by
  simp [repairSelector, hid, hfind, hprop]

theorem repairSelector_proposal_items (st : Store) (itemId : Nat) (propose : Proposer)
    (now : Nat) (item : TrackedItem) (p : Proposal) (hid : ¬(itemId = 0))
    (hfind : st.items.find? (fun it => it.id == itemId) = some item)
    (hprop : propose item.url item.selector (bestSampleText st itemId item)
        item.fingerprint = some p) :
    (repairSelector st itemId propose now).2.items
      = st.items.map (fun it => if it.id = item.id then
          { it with selector := p.selector, sampleText := some p.sampleText, type := p.type.getD it.type, consecutiveFailures := 0, lastSuccessAt := some now, updatedAt := now }
        else it) := by
  simp [repairSelector, hid, hfind, hprop, Store.createSnapshot]

theorem repairSelector_proposal_snapshots (st : Store) (itemId : Nat)
    (propose : Proposer) (now : Nat) (item : TrackedItem) (p : Proposal)
    (hid : ¬(itemId = 0))
    (hfind : st.items.find? (fun it => it.id == itemId) = some item)
    (hprop : propose item.url item.selector (bestSampleText st itemId item)
        item.fingerprint = some p) :
    (repairSelector st itemId propose now).2.snapshots
      = st.snapshots ++ [⟨st.nextSnapshotId, itemId, p.sampleText,
          (match p.valueNumeric with
           | some q => some q
           | none => parseNumericFromText p.sampleText), .ok⟩] := by
  cases hnum : p.valueNumeric with
  | some q => simp [repairSelector, hid, hfind, hprop, hnum, Store.createSnapshot]
  | none => simp [repairSelector, hid, hfind, hprop, hnum, Store.createSnapshot]

theorem repairSelector_proposal_result (st : Store) (itemId : Nat)
    (propose : Proposer) (now : Nat) (item : TrackedItem) (p : Proposal)
    (hid : ¬(itemId = 0))
    (hfind : st.items.find? (fun it => it.id == itemId) = some item)
    (hprop : propose item.url item.selector (bestSampleText st itemId item)
        item.fingerprint = some p) :
    (repairSelector st itemId propose now).1 = .repaired st.nextSnapshotId
      ∧ (repairSelector st itemId propose now).2.triggers = st.triggers
      ∧ (repairSelector st itemId propose now).2.triggerEvents = st.triggerEvents := by
  refine ⟨?_, ?_, ?_⟩ <;>
    simp [repairSelector, hid, hfind, hprop, Store.createSnapshot]

/-- C7: on a Proposal, the Repair Orchestrator replaces the item's
selector, sampleText and type (keeping the old type when the proposal
omits one), resets consecutiveFailures to 0, stamps lastSuccessAt, and
creates exactly one new ok Snapshot whose valueRaw is the proposal's
sample text and whose valueNumeric is the proposal's numeric or, when
omitted, the Numeric Parser's result on the sample text; with no
Proposal, the store is byte-for-byte unchanged and a distinct typed
no-viable-repair result is returned. -/
theorem C7_repair_orchestrator :
    (∀ (st : Store) (itemId : Nat) (propose : Proposer) (now : Nat)
       (item : TrackedItem),
      ¬(itemId = 0) →
      st.items.find? (fun it => it.id == itemId) = some item →
      propose item.url item.selector (bestSampleText st itemId item)
          item.fingerprint = none →
      repairSelector st itemId propose now = (.noViableRepair, st))
  ∧ (∀ (st : Store) (itemId : Nat) (propose : Proposer) (now : Nat)
       (item : TrackedItem) (p : Proposal),
      ¬(itemId = 0) →
      st.items.find? (fun it => it.id == itemId) = some item →
      propose item.url item.selector (bestSampleText st itemId item)
          item.fingerprint = some p →
        (repairSelector st itemId propose now).1 = .repaired st.nextSnapshotId
      ∧ (repairSelector st itemId propose now).2.snapshots
          = st.snapshots ++ [⟨st.nextSnapshotId, itemId, p.sampleText,
              (match p.valueNumeric with
               | some q => some q
               | none => parseNumericFromText p.sampleText), .ok⟩]
      ∧ (∀ it ∈ st.items, it.id = item.id →
          { it with selector := p.selector, sampleText := some p.sampleText, type := p.type.getD it.type, consecutiveFailures := 0, lastSuccessAt := some now, updatedAt := now } ∈ (repairSelector st itemId propose now).2.items)
      ∧ (∀ it ∈ st.items, ¬(it.id = item.id) →
          it ∈ (repairSelector st itemId propose now).2.items)
      ∧ (repairSelector st itemId propose now).2.triggers = st.triggers
      ∧ (repairSelector st itemId propose now).2.triggerEvents = st.triggerEvents) := by
  constructor
  · exact repairSelector_no_proposal
  · intro st itemId propose now item p hid hfind hprop
    obtain ⟨hres, htr, hev⟩ :=
      repairSelector_proposal_result st itemId propose now item p hid hfind hprop
    refine ⟨hres,
      repairSelector_proposal_snapshots st itemId propose now item p hid hfind hprop,
      ?_, ?_, htr, hev⟩
    · intro it hit hidm
      rw [repairSelector_proposal_items st itemId propose now item p hid hfind hprop]
      have hmem := List.mem_map_of_mem (fun it => if it.id = item.id then
          { it with selector := p.selector, sampleText := some p.sampleText, type := p.type.getD it.type, consecutiveFailures := 0, lastSuccessAt := some now, updatedAt := now }
        else it) hit
      simpa [hidm] using hmem
    · intro it hit hidm
      rw [repairSelector_proposal_items st itemId propose now item p hid hfind hprop]
      have hmem := List.mem_map_of_mem (fun it => if it.id = item.id then
          { it with selector := p.selector, sampleText := some p.sampleText, type := p.type.getD it.type, consecutiveFailures := 0, lastSuccessAt := some now, updatedAt := now }
        else it) hit
      simpa [hidm] using hmem

/-- Witness for C7: a proposal-returning collaborator repairs a
concrete item (selector replaced, health reset, one ok snapshot), and a
nothing-returning collaborator leaves the concrete store untouched. -/
theorem C7_witness :
    repairSelector storeSick 1 proposeNone 9 = (.noViableRepair, storeSick)
      ∧ (repairSelector storeSick 1 proposeEx 9).1
          = .repaired storeSick.nextSnapshotId
      ∧ (repairSelector storeSick 1 proposeEx 9).2.snapshots
          = storeSick.snapshots ++ [⟨storeSick.nextSnapshotId, 1, "$9.99",
              (match (some ⟨".newprice", "$9.99", none, none⟩ : Option Proposal) with
               | some p =>
                 match p.valueNumeric with
                 | some q => some q
                 | none => parseNumericFromText p.sampleText
               | none => none), .ok⟩] :=
  ⟨C7_repair_orchestrator.1 storeSick 1 proposeNone 9 itemSick
     (by decide) (by decide) (by decide),
   (C7_repair_orchestrator.2 storeSick 1 proposeEx 9 itemSick
     ⟨".newprice", "$9.99", none, none⟩ (by decide) (by decide) (by decide)).1,
   (C7_repair_orchestrator.2 storeSick 1 proposeEx 9 itemSick
     ⟨".newprice", "$9.99", none, none⟩ (by decide) (by decide) (by decide)).2.1⟩

/-- C2: the Trigger Evaluator fires a trigger only when it is active
(the trigger list is the active-triggers query), its lastFiredAt is
null, and the standard comparison between the just-created snapshot's
numeric value and the threshold holds (first conjunct spells out the
lt/lte/gt/gte/eq/neq semantics); on the ok-numeric path each such
trigger yields exactly one TriggerEvent referencing that trigger and
the snapshot created in the same invocation (whose id is the store's
next snapshot id), after which the trigger's lastFiredAt is non-null;
and once lastFiredAt is non-null the trigger produces no TriggerEvent
in any later evaluation. -/
theorem C2_trigger_evaluator :
    (∀ v th : ℚ,
        meetsComparison v "lt" th = decide (v < th)
      ∧ meetsComparison v "lte" th = decide (v ≤ th)
      ∧ meetsComparison v "gt" th = decide (v > th)
      ∧ meetsComparison v "gte" th = decide (v ≥ th)
      ∧ meetsComparison v "eq" th = decide (v = th)
      ∧ meetsComparison v "neq" th = decide (v ≠ th))
  ∧ (∀ (env : ExtractionEnv) (st : Store) (id now : Nat) (item : TrackedItem)
       (text : String) (q : ℚ),
      st.items.find? (fun it => it.id == id) = some item →
      extractedText env item = .ok (some text) →
      parseNumericFromText text = some q →
        (processTrackedItem env st id now).snapshots
          = st.snapshots ++ [⟨st.nextSnapshotId, item.id, text, some q, .ok⟩]
      ∧ (processTrackedItem env st id now).triggerEvents
          = st.triggerEvents
            ++ ((activeTriggersFor st item.id).filter
                  (fun t => t.lastFiredAt.isNone
                    && meetsComparison q t.comparison t.threshold)).map
                (fun t => TriggerEvent.mk t.id st.nextSnapshotId)
      ∧ ∀ trig ∈ activeTriggersFor st item.id,
          (trig.lastFiredAt.isNone
            && meetsComparison q trig.comparison trig.threshold) = true →
          TriggerDormant (processTrackedItem env st id now) trig.id)
  ∧ (∀ (invs : List Invocation) (st : Store) (tid : Nat),
      TriggerDormant st tid → eventsFor (runAll invs st) tid = eventsFor st tid) := by
  refine ⟨?_, ?_, ?_⟩
  · intro v th
    exact ⟨rfl, rfl, rfl, rfl, rfl, rfl⟩
  · intro env st id now item text q hfind hext hq
    have heq := processTrackedItem_ok_numeric env st id now item text q hfind hext hq
    refine ⟨?_, ?_, ?_⟩
    · rw [heq, evalLoop_snapshots]
      rfl
    · rw [heq, evalLoop_events]
      rfl
    · intro trig htrig hcond
      rw [heq]
      exact evalLoop_fired_dormant q st.nextSnapshotId now
        (activeTriggersFor st item.id) _ trig htrig hcond
  · intro invs st tid h
    exact (runAll_dormant invs st tid h).2

/-- Witness for C2: a concrete lt-trigger fires exactly once on the
snapshot created in the same invocation, and a concrete already-fired
trigger produces no further events across a later run. -/
theorem C2_witness :
    storeEx.items.find? (fun it => it.id == 1) = some itemEx
      ∧ (processTrackedItem envPriceOk storeEx 1 5).triggerEvents
          = storeEx.triggerEvents
            ++ ((activeTriggersFor storeEx itemEx.id).filter
                  (fun t => t.lastFiredAt.isNone
                    && meetsComparison (mkRat 1999 100) t.comparison t.threshold)).map
                (fun t => TriggerEvent.mk t.id storeEx.nextSnapshotId)
      ∧ eventsFor (runAll [⟨envPriceOk, 1, 9⟩] storeFired) 7 = eventsFor storeFired 7 :=
  ⟨by decide,
   (C2_trigger_evaluator.2.1 envPriceOk storeEx 1 5 itemEx "$19.99" (mkRat 1999 100)
     (by decide) (by decide) (by decide)).2.1,
   C2_trigger_evaluator.2.2 [⟨envPriceOk, 1, 9⟩] storeFired 7
     (by intro t ht htid; simp [storeFired, triggerEx] at ht; rw [ht]; rfl)⟩

/-- C3: the Numeric Parser returns the exact decimal value of the first
matched token with grouping separators stripped (first conjunct, with
the spec-side decimal reading), returns null on digit-free inputs
(second), returns a value whenever the input contains a digit (third),
and on the claim's examples yields 1234.56, 3 and -42; it is a total
Lean function, hence deterministic, side-effect free and non-throwing. -/
theorem C3_numeric_parse_spec :
    (∀ (t : String) (tok : List Char),
        firstToken (collapseWs t.data) = some tok →
        parseNumericFromText t = some (decimalValueOfToken (stripCommas tok)))
  ∧ (∀ t : String, t.data.any Char.isDigit = false → parseNumericFromText t = none)
  ∧ (∀ t : String, t.data.any Char.isDigit = true →
      (parseNumericFromText t).isSome = true)
  ∧ parseNumericFromText "$1,234.56" = some (mkRat 123456 100)
  ∧ (mkRat 123456 100 : ℚ) = 1234.56
  ∧ parseNumericFromText "Qty: 3" = some 3
  ∧ parseNumericFromText "-42" = some (-42) :=
  ⟨parse_eq_decimal_of_firstToken, parse_none_of_no_digit, parse_isSome_of_digit,
   by decide, by norm_num [mkRat, Rat.normalize], by decide, by decide⟩

/-- Witness for C3: the universally quantified conjuncts applied at
concrete inputs. -/
theorem C3_witness :
    ("no digits here".data.any Char.isDigit = false
      ∧ parseNumericFromText "no digits here" = none)
    ∧ ("Qty: 3".data.any Char.isDigit = true
      ∧ (parseNumericFromText "Qty: 3").isSome = true)
    ∧ (firstToken (collapseWs "-42".data) = some ['-', '4', '2']
      ∧ parseNumericFromText "-42"
          = some (decimalValueOfToken (stripCommas ['-', '4', '2']))) :=
  ⟨⟨by decide, C3_numeric_parse_spec.2.1 "no digits here" (by decide)⟩,
   ⟨by decide, C3_numeric_parse_spec.2.2.1 "Qty: 3" (by decide)⟩,
   ⟨by decide, C3_numeric_parse_spec.1 "-42" ['-', '4', '2'] (by decide)⟩⟩

/-- C10: commas inside the first numeric token are deleted with no
validation of three-digit grouping: a digit run, a comma, and another
digit run (as in "1,2") parse to the concatenated digits (12), not to
null and not to the value before the comma. -/
theorem C10_comma_stripping (ds es : List Char)
    (h1 : ds ≠ []) (h2 : es ≠ [])
    (hds : ds.all Char.isDigit = true) (hes : es.all Char.isDigit = true) :
    parseNumericFromText ⟨ds ++ ',' :: es⟩ = some (mkRat (digitsVal (ds ++ es)) 1) := by
  have hnws : ∀ c ∈ ds ++ ',' :: es, isWsChar c = false := by
    intro c hc
    rcases List.mem_append.1 hc with hc1 | hc2
    · exact digit_not_ws c (List.all_eq_true.1 hds c hc1)
    · rcases List.mem_cons.1 hc2 with rfl | hc3
      · decide
      · exact digit_not_ws c (List.all_eq_true.1 hes c hc3)
  have hcol : collapseWs (ds ++ ',' :: es) = ds ++ ',' :: es :=
    collapseWsAux_no_ws false _ hnws
  obtain ⟨d, ds', rfl⟩ : ∃ d ds', ds = d :: ds' := by
    cases ds with
    | nil => exact absurd rfl h1
    | cons d ds' => exact ⟨d, ds', rfl⟩
  rw [List.all_cons, Bool.and_eq_true] at hds
  have hX : (ds' ++ ',' :: es).all isDigitOrComma = true := by
    rw [List.all_eq_true]
    intro c hc
    rcases List.mem_append.1 hc with hc1 | hc2
    · rw [isDigitOrComma, Bool.or_eq_true]
      exact Or.inl (List.all_eq_true.1 hds.2 c hc1)
    · rcases List.mem_cons.1 hc2 with rfl | hc3
      · decide
      · rw [isDigitOrComma, Bool.or_eq_true]
        exact Or.inl (List.all_eq_true.1 hes c hc3)
  have hft : firstToken ((d :: ds') ++ ',' :: es) = some ((d :: ds') ++ ',' :: es) := by
    rw [List.cons_append]
    exact firstToken_all_digitOrComma d (ds' ++ ',' :: es) hds.1 hX
  have hdata : (⟨(d :: ds') ++ ',' :: es⟩ : String).data = (d :: ds') ++ ',' :: es := rfl
  have hstrip : stripCommas ((d :: ds') ++ ',' :: es) = (d :: ds') ++ es := by
    rw [stripCommas_append, stripCommas_comma_cons,
      stripCommas_all_digits _ (by rw [List.all_cons, Bool.and_eq_true]; exact hds),
      stripCommas_all_digits _ hes]
  have hall : (d :: (ds' ++ es)).all Char.isDigit = true := by
    rw [List.all_cons, Bool.and_eq_true]
    refine ⟨hds.1, ?_⟩
    rw [List.all_eq_true]
    intro c hc
    rcases List.mem_append.1 hc with hc1 | hc2
    · exact List.all_eq_true.1 hds.2 c hc1
    · exact List.all_eq_true.1 hes c hc2
  simp only [parseNumericFromText, hdata, hcol, hft, hstrip]
  rw [List.cons_append]
  simp only [numberValue?]
  rw [if_neg (digit_ne_minus d hds.1)]
  rw [numberMagnitude_all_digits _ hall (by intro habs; cases habs)]

/-- Witness for C10: "1,2" parses to 12. -/
theorem C10_witness :
    parseNumericFromText ⟨['1'] ++ ',' :: ['2']⟩
        = some (mkRat (digitsVal (['1'] ++ ['2'])) 1)
      ∧ parseNumericFromText "1,2" = some 12 :=
  ⟨C10_comma_stripping ['1'] ['2'] (by decide) (by decide) (by decide) (by decide),
   by decide⟩

end TackR
